import Mathlib

/-!
Verification of the EPİAŞ renewable-portfolio analysis pipeline
(`kod/streamlit/epias_client.py` and `kod/streamlit/streamlit_app.py`).

Numeric values are modelled over `ℚ`; the dynamically-typed "missing value"
(`NaN`/`None`) of the source is modelled as `Option ℚ` with `none` for the
unknown marker, and the NaN-skipping / NaN-propagating behaviour of each
pandas operation is reproduced at each call site.
-/

namespace Epias

/-! ### Column-letter encoding (`streamlit_app.py`, `_col_letter`) -/

/-- Embedding of `_col_letter` from `streamlit_app.py`: the loop
`idx, rem = divmod(idx, 26); letters = chr(65 + rem) + letters; if idx == 0: break; idx -= 1`
builds the letter list from least-significant to most-significant letter, which is the
recursion below (the recursive call plays the role of the remaining loop iterations;
`fuel` is a structural bound on their number — the index strictly decreases across an
iteration, so `n + 1` units always suffice). -/
def colLetterAux : ℕ → ℕ → List Char
  | _, 0 => []
  | n, fuel + 1 =>
    if n < 26 then [Char.ofNat (65 + n)]
    else colLetterAux (n / 26 - 1) fuel ++ [Char.ofNat (65 + n % 26)]

/-- The letter list of `_col_letter` for zero-based index `n`. -/
def colLetterList (n : ℕ) : List Char := colLetterAux n (n + 1)

/-- `_col_letter` of `streamlit_app.py`, returning the spreadsheet column string. -/
def col_letter (n : ℕ) : String := String.mk (colLetterList n)

/-- Spec-side definition (§9 of the spec): the numeric value of a bijective base-26
numeral over the digit alphabet A=1, ..., Z=26 (no digit zero).  The standard
spreadsheet column sequence A, B, ..., Z, AA, ... enumerates, in order, exactly the
numerals with values 1, 2, 3, ...; so `col_letter` agrees with that sequence at
zero-based index `n` iff its output has numeral value `n + 1`. -/
def lettersVal (l : List Char) : ℕ := l.foldl (fun a c => 26 * a + (c.toNat - 64)) 0

/-! ### Date-range partitioning (`epias_client.py`, `month_start_end_strings`)

All in-repo callers build the inputs at midnight (`datetime.combine(d, time.min)`,
`start_of_day`, `end_of_day`), and the emitted sub-ranges step in whole days
(`next_month - timedelta(days=1)`), so the embedding models the timestamps at
calendar-day resolution: a date is a month index `mi = 12 * year + (month - 1)`
together with a 1-based day of month. -/

/-- A calendar date: absolute month index (`12 * year + (month - 1)`) and 1-based day. -/
structure MDate where
  mi : ℕ
  d : ℕ
  deriving DecidableEq, Repr

/-- Gregorian leap-year rule (as implemented by Python's `datetime`). -/
def isLeap (y : ℕ) : Bool := (y % 4 == 0 && y % 100 != 0) || y % 400 == 0

/-- Days in month `m` (1-based) of year `y`, as in Python's `datetime`/`calendar`. -/
def daysInMonthNum (y m : ℕ) : ℕ :=
  if m = 2 then (if isLeap y then 29 else 28)
  else if m = 4 ∨ m = 6 ∨ m = 9 ∨ m = 11 then 30
  else 31

/-- Year of an absolute month index. -/
def MDate.year (a : MDate) : ℕ := a.mi / 12

/-- 1-based calendar month of an absolute month index. -/
def MDate.monthNum (a : MDate) : ℕ := a.mi % 12 + 1

/-- Days in the month of absolute month index `mi`. -/
def dim (mi : ℕ) : ℕ := daysInMonthNum (mi / 12) (mi % 12 + 1)

/-- A structurally valid calendar date. -/
def MDate.valid (a : MDate) : Prop := 1 ≤ a.d ∧ a.d ≤ dim a.mi

instance (a : MDate) : Decidable a.valid := by unfold MDate.valid; infer_instance

/-- Date order (`datetime` comparison), lexicographic on (month index, day). -/
def dle (a b : MDate) : Prop := a.mi < b.mi ∨ (a.mi = b.mi ∧ a.d ≤ b.d)

/-- Strict date order. -/
def dlt (a b : MDate) : Prop := a.mi < b.mi ∨ (a.mi = b.mi ∧ a.d < b.d)

instance (a b : MDate) : Decidable (dle a b) := by unfold dle; infer_instance

instance (a b : MDate) : Decidable (dlt a b) := by unfold dlt; infer_instance

/-- Python's `max` on two dates. -/
def dmax (a b : MDate) : MDate := if dle a b then b else a

/-- Python's `min` on two dates. -/
def dmin (a b : MDate) : MDate := if dle a b then a else b

/-- The calendar day after `a`. -/
def nextDay (a : MDate) : MDate :=
  if a.d < dim a.mi then ⟨a.mi, a.d + 1⟩ else ⟨a.mi + 1, 1⟩

/-- The `while cursor <= end_dt` loop of `month_start_end_strings`: the cursor is the
first day of month `cmi`; each iteration emits
`(max(start_dt, cursor), min(end_dt, next_month - timedelta(days=1)))` and advances the
cursor one month.  `fuel` bounds the number of remaining iterations; callers pass
`e.mi + 1 - s.mi`, the exact iteration count of the Python loop. -/
def monthRangesAux (s e : MDate) : ℕ → ℕ → List (MDate × MDate)
  | _, 0 => []
  | cmi, fuel + 1 =>
    if dle ⟨cmi, 1⟩ e then
      (dmax s ⟨cmi, 1⟩, dmin e ⟨cmi, dim cmi⟩) :: monthRangesAux s e (cmi + 1) fuel
    else []

/-- `month_start_end_strings` before string formatting: the `ValueError` raised on
`end_dt < start_dt` is modelled as `Except.error`. -/
def month_start_end (s e : MDate) : Except String (List (MDate × MDate)) :=
  if dlt e s then .error "end_dt must be >= start_dt"
  else .ok (monthRangesAux s e s.mi (e.mi + 1 - s.mi))

/-- Zero-padded decimal rendering, as `strftime` does for each field. -/
def padNum (width n : ℕ) : String :=
  String.mk (List.replicate (width - (toString n).length) '0') ++ toString n

/-- `strftime(ISO_FMT)` for a midnight timestamp: `YYYY-MM-DDTHH:MM:SS+03:00`
with the time component `00:00:00`. -/
def isoFmt (a : MDate) : String :=
  padNum 4 a.year ++ "-" ++ padNum 2 a.monthNum ++ "-" ++ padNum 2 a.d ++ "T00:00:00+03:00"

/-- `month_start_end_strings` of `epias_client.py`. -/
def month_start_end_strings (s e : MDate) : Except String (List (String × String)) :=
  (month_start_end s e).map (List.map fun pr => (isoFmt pr.1, isoFmt pr.2))

/-- Closed form of the emitted period for cursor month `c`. -/
def periodAt (s e : MDate) (c : ℕ) : MDate × MDate :=
  (if c = s.mi then s else ⟨c, 1⟩, if c = e.mi then e else ⟨c, dim c⟩)

/-! ### Time-key normalization (`epias_client.py`, `_build_datetime`)

`_build_datetime` extracts, per row, `day` via the anchored regular expression
`^(\d{4}-\d{2}-\d{2})` on the date field, `hour` via `^(\d{2}:\d{2})` on the hour
field, a fallback hour via the unanchored `T(\d{2}:\d{2})` on the date field, takes
`hour_final = hour_norm.fillna(derived_from_date).fillna("00:00")`, and parses
`day + " " + hour_final` with `pd.to_datetime(..., format="%Y-%m-%d %H:%M",
errors="coerce")`, which yields the invalid marker `NaT` (here `none`) instead of
raising when the combined text is not a valid timestamp. -/

/-- An hour-resolution timestamp (what a non-`NaT` entry of the `datetime` column
carries). -/
structure Ts where
  y : ℕ
  m : ℕ
  d : ℕ
  hh : ℕ
  mm : ℕ
  deriving DecidableEq, Repr

/-- Calendar validity of a parsed timestamp, as enforced by
`pd.to_datetime(..., errors="coerce")`. -/
def Ts.isValid (t : Ts) : Prop :=
  1 ≤ t.m ∧ t.m ≤ 12 ∧ 1 ≤ t.d ∧ t.d ≤ daysInMonthNum t.y t.m ∧ t.hh < 24 ∧ t.mm < 60

instance (t : Ts) : Decidable t.isValid := by unfold Ts.isValid; infer_instance

/-- Value of a decimal digit character. -/
def digVal (c : Char) : ℕ := c.toNat - 48

/-- The anchored match `^(\d{4}-\d{2}-\d{2})`: the first 10 characters when they have
the digit/dash shape, else no match. -/
def dayMatch (l : List Char) : Option (List Char) :=
  match l with
  | y1 :: y2 :: y3 :: y4 :: s1 :: m1 :: m2 :: s2 :: d1 :: d2 :: _ =>
    if y1.isDigit ∧ y2.isDigit ∧ y3.isDigit ∧ y4.isDigit ∧ s1 = '-' ∧
        m1.isDigit ∧ m2.isDigit ∧ s2 = '-' ∧ d1.isDigit ∧ d2.isDigit then
      some [y1, y2, y3, y4, s1, m1, m2, s2, d1, d2]
    else none
  | _ => none

/-- The anchored match `^(\d{2}:\d{2})`. -/
def hmMatch (l : List Char) : Option (List Char) :=
  match l with
  | h1 :: h2 :: s1 :: n1 :: n2 :: _ =>
    if h1.isDigit ∧ h2.isDigit ∧ s1 = ':' ∧ n1.isDigit ∧ n2.isDigit then
      some [h1, h2, s1, n1, n2]
    else none
  | _ => none

/-- The unanchored search `T(\d{2}:\d{2})`: the capture at the first position where a
`T` is followed by a five-character `HH:MM` shape. -/
def hourAfterT : List Char → Option (List Char)
  | [] => none
  | c :: rest =>
    if c = 'T' then
      match hmMatch rest with
      | some h => some h
      | none => hourAfterT rest
    else hourAfterT rest

/-- Numeric parse of a matched `YYYY-MM-DD` + `HH:MM` pair into a timestamp
candidate (the matched shapes are all-digit at the numeric positions). -/
def tsOfParts (day hm : List Char) : Option Ts :=
  match day, hm with
  | [y1, y2, y3, y4, _, m1, m2, _, d1, d2], [h1, h2, _, n1, n2] =>
    some ⟨((digVal y1 * 10 + digVal y2) * 10 + digVal y3) * 10 + digVal y4,
          digVal m1 * 10 + digVal m2,
          digVal d1 * 10 + digVal d2,
          digVal h1 * 10 + digVal h2,
          digVal n1 * 10 + digVal n2⟩
  | _, _ => none

/-- Result of `_build_datetime` for one row: the `Tarih` column (normalized day
string, unknown when the date field has no `YYYY-MM-DD` shape), the `Saat` column
(normalized `HH:MM` string, never unknown), and the `datetime` column (`none` is
`NaT`). -/
structure TimeKey where
  tarih : Option String
  saat : String
  ts : Option Ts
  deriving DecidableEq, Repr

/-- Per-row embedding of `_build_datetime`.  `hour? = none` models a null /
missing dedicated hour field (whose `astype(str)` text matches no `HH:MM`). -/
def build_datetime_row (date : String) (hour? : Option String) : TimeKey :=
  let day := dayMatch date.toList
  let hourNorm := hour?.bind fun h => hmMatch h.toList
  let derived := hourAfterT date.toList
  let hourFinal := ((hourNorm.or derived).getD ['0', '0', ':', '0', '0'])
  let ts :=
    match day with
    | none => none
    | some dl =>
      match tsOfParts dl hourFinal with
      | none => none
      | some t => if t.isValid then some t else none
  ⟨day.map String.mk, String.mk hourFinal, ts⟩

/-! ### Settlement calculation (`epias_client.py`, `build_plant_dataframe`)

pandas semantics reproduced here:
* `x - y`, `x * y` on element pairs propagate NaN (`none`);
* `df[["PTF", "SMF"]].min(axis=1)` / `.max(axis=1)` skip NaN, so a pair with one
  unknown yields the known value and only an all-unknown pair stays unknown;
* `.clip(lower=0)` maps NaN to NaN;
* `merge(..., how="inner")` and `merge(..., how="left")` match equal keys, and a
  `NaT` key equals a `NaT` key (pandas compares `datetime64` join keys by their
  underlying sentinel-coded integers, so `NaT` rows join with `NaT` rows);
  inner-merge output preserves the left row order, left-merge keeps unmatched left
  rows with the right-hand fields unknown. -/

/-- NaN-propagating product. -/
def optMul (a b : Option ℚ) : Option ℚ := a.bind fun x => b.map fun y => x * y

/-- NaN-propagating difference. -/
def optSub (a b : Option ℚ) : Option ℚ := a.bind fun x => b.map fun y => x - y

/-- NaN-propagating sum of a pair. -/
def optAdd (a b : Option ℚ) : Option ℚ := a.bind fun x => b.map fun y => x + y

/-- Row-wise `min` over two columns with pandas NaN skipping. -/
def pdMin2 : Option ℚ → Option ℚ → Option ℚ
  | none, b => b
  | some a, none => some a
  | some a, some b => some (min a b)

/-- Row-wise `max` over two columns with pandas NaN skipping. -/
def pdMax2 : Option ℚ → Option ℚ → Option ℚ
  | none, b => b
  | some a, none => some a
  | some a, some b => some (max a b)

/-- A raw API item for one hour, as appended by the fetch loops:
`{date, hour/time, value}`, where the value field is already-numeric JSON or null. -/
structure RawRec where
  date : String
  hour : Option String
  value : Option ℚ
  deriving DecidableEq, Repr

/-- A row of the dataframe returned by `fetch_kgup`:
columns `datetime`, `Tarih`, `Saat`, `KGUP`. -/
structure KgupRow where
  ts : Option Ts
  tarih : Option String
  saat : String
  kgup : Option ℚ
  deriving DecidableEq, Repr

/-- A row of the dataframe returned by `fetch_uretim`: columns `datetime`, `URETIM`. -/
structure UretimRow where
  ts : Option Ts
  uretim : Option ℚ
  deriving DecidableEq, Repr

/-- A row of the dataframe returned by `fetch_ptf`: columns `datetime`, `PTF`. -/
structure PtfRow where
  ts : Option Ts
  ptf : Option ℚ
  deriving DecidableEq, Repr

/-- A row of the dataframe returned by `fetch_smf`: columns `datetime`, `SMF`. -/
structure SmfRow where
  ts : Option Ts
  smf : Option ℚ
  deriving DecidableEq, Repr

/-- `fetch_kgup` after the HTTP layer: normalize each accumulated raw item with
`_build_datetime` and keep columns `datetime`, `Tarih`, `Saat`, `KGUP`. -/
def fetch_kgup_rows (raw : List RawRec) : List KgupRow :=
  raw.map fun r =>
    let k := build_datetime_row r.date r.hour
    ⟨k.ts, k.tarih, k.saat, r.value⟩

/-- `fetch_uretim` after the HTTP layer. -/
def fetch_uretim_rows (raw : List RawRec) : List UretimRow :=
  raw.map fun r => ⟨(build_datetime_row r.date r.hour).ts, r.value⟩

/-- `fetch_ptf` after the HTTP layer. -/
def fetch_ptf_rows (raw : List RawRec) : List PtfRow :=
  raw.map fun r => ⟨(build_datetime_row r.date r.hour).ts, r.value⟩

/-- `fetch_smf` after the HTTP layer. -/
def fetch_smf_rows (raw : List RawRec) : List SmfRow :=
  raw.map fun r => ⟨(build_datetime_row r.date r.hour).ts, r.value⟩

/-- The joined row before the derived-column block: `datetime`, `Tarih`, `Saat`,
`KGUP`, `URETIM`, `PTF`, `SMF`. -/
structure JoinedRow where
  ts : Option Ts
  tarih : Option String
  saat : String
  kgup : Option ℚ
  uretim : Option ℚ
  ptf : Option ℚ
  smf : Option ℚ
  deriving DecidableEq, Repr

/-- `kgup_df.merge(uretim_df, on="datetime", how="inner")`. -/
def innerMergeUretim (kgup : List KgupRow) (uretim : List UretimRow) :
    List (KgupRow × UretimRow) :=
  kgup.flatMap fun a => (uretim.filter fun b => b.ts = a.ts).map fun b => (a, b)

/-- `df.merge(ptf_df, on="datetime", how="left")` on the PTF field. -/
def leftJoinPtf (ptf : List PtfRow) (ts : Option Ts) : List (Option ℚ) :=
  match ptf.filter fun p => p.ts = ts with
  | [] => [none]
  | l => l.map PtfRow.ptf

/-- `df.merge(smf_df, on="datetime", how="left")` on the SMF field. -/
def leftJoinSmf (smf : List SmfRow) (ts : Option Ts) : List (Option ℚ) :=
  match smf.filter fun p => p.ts = ts with
  | [] => [none]
  | l => l.map SmfRow.smf

/-- The output row of `build_plant_dataframe` (columns `Tarih`, `Ay`, `Saat`, `PTF`,
`SMF`, `Poz_DF`, `Neg_DF`, `KGUP`, `URETIM`, `Dengesizlik`, `GOP_Geliri`,
`Dengesizlik_Tutarı`, `Net_Gelir`, `Dengesizlik_Maliyeti`, `Birim_DM`). -/
structure HRow where
  tarih : Option String
  ay : Option ℕ
  saat : String
  ptf : Option ℚ
  smf : Option ℚ
  pozDF : Option ℚ
  negDF : Option ℚ
  kgup : Option ℚ
  uretim : Option ℚ
  deng : Option ℚ
  gop : Option ℚ
  tutari : Option ℚ
  net : Option ℚ
  maliyeti : Option ℚ
  birim : Option ℚ
  deriving DecidableEq, Repr

/-- The derived-column block of `build_plant_dataframe` (lines 180-202 of
`epias_client.py`), per joined row, in source order: `Ay` from the timestamp month,
`Poz_DF`, `Neg_DF`, `Dengesizlik`, `GOP_Geliri`, `Dengesizlik_Tutarı` (0 when the
imbalance is unknown, else signed settlement price), `Net_Gelir`,
`Dengesizlik_Maliyeti` (clipped at 0), `Birim_DM` (0 when `URETIM` unknown or 0). -/
def computeRow (j : JoinedRow) : HRow :=
  let ay := j.ts.map Ts.m
  let pozDF := (pdMin2 j.ptf j.smf).map fun x => x * (97 / 100 : ℚ)
  let negDF := (pdMax2 j.ptf j.smf).map fun x => x * (103 / 100 : ℚ)
  let deng := optSub j.uretim j.kgup
  let gop := optMul j.kgup j.ptf
  let tutari : Option ℚ :=
    match deng with
    | none => some 0
    | some dv => optMul (some dv) (if dv ≥ 0 then pozDF else negDF)
  let net := optAdd gop tutari
  let maliyeti := (optSub (optMul j.uretim j.ptf) net).map fun x => max x 0
  let birim : Option ℚ :=
    match j.uretim with
    | none => some 0
    | some uv => if uv = 0 then some 0 else maliyeti.map fun c => c / uv
  ⟨j.tarih, ay, j.saat, j.ptf, j.smf, pozDF, negDF, j.kgup, j.uretim,
    deng, gop, tutari, net, maliyeti, birim⟩

/-- Spec-side formula (§4.4): `Dengesizlik_Tutarı` for known inputs,
`Dengesizlik × Poz_DF` when `Dengesizlik ≥ 0`, else `Dengesizlik × Neg_DF`. -/
def settleTut (p s k u : ℚ) : ℚ :=
  if u - k ≥ 0 then (u - k) * (min p s * (97 / 100))
  else (u - k) * (max p s * (103 / 100))

/-- Spec-side formula (§4.4): `Net_Gelir = GOP_Geliri + Dengesizlik_Tutarı`. -/
def settleNet (p s k u : ℚ) : ℚ := k * p + settleTut p s k u

/-- Spec-side formula (§4.4):
`Dengesizlik_Maliyeti = max(0, URETIM × PTF − Net_Gelir)`. -/
def settleMal (p s k u : ℚ) : ℚ := max (u * p - settleNet p s k u) 0

/-- Spec-side formula (§4.4): `Birim_DM = 0` at `URETIM = 0`, else
`Dengesizlik_Maliyeti / URETIM`. -/
def settleBirim (p s k u : ℚ) : ℚ := if u = 0 then 0 else settleMal p s k u / u

/-- The join stage of `build_plant_dataframe` (lines 167-179 of
`epias_client.py`), taking the four fetched tables: returns the empty table when
the plan table or the realized table is empty (before any further merge); inner
join of plan and realized on `datetime`; then, for a nonempty joined table, either
the two left joins with the price tables, or — when a price table is empty, so its
merge is skipped and the `PTF`/`SMF` column never exists — the `KeyError` that the
derived-column block then raises on the missing column (modelled as
`Except.error`). -/
def build_plant_joined (kgup : List KgupRow) (uretim : List UretimRow)
    (ptf : List PtfRow) (smf : List SmfRow) : Except String (List JoinedRow) :=
  if kgup.isEmpty ∨ uretim.isEmpty then .ok []
  else
    let joined := innerMergeUretim kgup uretim
    if ptf.isEmpty ∨ smf.isEmpty then
      .error "KeyError: PTF/SMF column missing"
    else
      .ok <| joined.flatMap fun kv =>
        (leftJoinPtf ptf kv.1.ts).flatMap fun pv =>
          (leftJoinSmf smf kv.1.ts).map fun sv =>
            ⟨kv.1.ts, kv.1.tarih, kv.1.saat, kv.1.kgup, kv.2.uretim, pv, sv⟩

/-- `build_plant_dataframe` after the HTTP layer: the join stage followed by the
derived-column block on every joined row. -/
def build_plant_dataframe (kgup : List KgupRow) (uretim : List UretimRow)
    (ptf : List PtfRow) (smf : List SmfRow) : Except String (List HRow) :=
  (build_plant_joined kgup uretim ptf smf).map (List.map computeRow)

/-! ### Monthly aggregation (`streamlit_app.py`, `build_monthly_summary`)

`df.groupby("Ay", dropna=False).agg({...: "sum"}).reindex(range(1, 13), fill_value=0)`
sums each column over the rows of each month with NaN skipped (an absent or all-NaN
month sums to 0, and a NaN `Ay` group is discarded by the reindex), which per month
`m` is the NaN-skipping column sum over the rows with `Ay == m`. -/

/-- NaN-skipping pandas column sum (`Series.sum()`): sum of the known entries,
`0` for an empty or all-unknown column. -/
def osum (l : List (Option ℚ)) : ℚ := (l.filterMap id).sum

/-- The rows of calendar month `m` (the `df2["Ay"] == m` mask; a NaN month never
matches). -/
def monthRows (rows : List HRow) (m : ℕ) : List HRow :=
  rows.filter fun r => r.ay = some m

/-- One output row of `build_monthly_summary`: the six summed columns and the two
unit ratios, in sheet order (`Gerçekleşen Üretim`, `Dengesizlik Miktarı`,
`GÖP Geliri`, `Dengesizlik Tutarı`, `Toplam Gelir`, `Birim Gelir`,
`Dengesizlik Maliyeti`, `Birim Deng Mal.`).  The `Ay` label column is positional:
entry `i < 12` is month `i + 1`, entry 12 is the `"Toplam"` row. -/
structure MSRow where
  uretim : ℚ
  deng : ℚ
  gop : ℚ
  tutari : ℚ
  net : ℚ
  birimGelir : ℚ
  maliyeti : ℚ
  birimDM : ℚ
  deriving DecidableEq, Repr

/-- The all-zero summary row (an aggregated month with no data). -/
def msZero : MSRow := ⟨0, 0, 0, 0, 0, 0, 0, 0⟩

/-- The aggregated row of one month: column sums over the month's rows, and the two
unit ratios `Net_Gelir / URETIM` and `Dengesizlik_Maliyeti / URETIM`, `0.0` when the
`URETIM` sum is `0` (the `not in (0, 0.0)` guard). -/
def aggMonth (rows : List HRow) (m : ℕ) : MSRow :=
  let mr := monthRows rows m
  let u := osum (mr.map HRow.uretim)
  let dg := osum (mr.map HRow.deng)
  let g := osum (mr.map HRow.gop)
  let t := osum (mr.map HRow.tutari)
  let n := osum (mr.map HRow.net)
  let mc := osum (mr.map HRow.maliyeti)
  ⟨u, dg, g, t, n, if u = 0 then 0 else n / u, mc, if u = 0 then 0 else mc / u⟩

/-- `build_monthly_summary` of `streamlit_app.py`: the 12 month rows (months 1-12 in
order) followed by the `"Toplam"` row, whose summed columns sum the 12 monthly rows
and whose two ratios are recomputed from those totals under the same zero guard. -/
def build_monthly_summary (rows : List HRow) : List MSRow :=
  let monthly := (List.range 12).map fun i => aggMonth rows (i + 1)
  let tu := (monthly.map MSRow.uretim).sum
  let td := (monthly.map MSRow.deng).sum
  let tg := (monthly.map MSRow.gop).sum
  let tt := (monthly.map MSRow.tutari).sum
  let tn := (monthly.map MSRow.net).sum
  let tm := (monthly.map MSRow.maliyeti).sum
  monthly ++ [⟨tu, td, tg, tt, tn, if tu = 0 then 0 else tn / tu, tm,
    if tu = 0 then 0 else tm / tu⟩]

/-! ### Extended monthly KPIs (`streamlit_app.py`, `compute_monthly_extras`) -/

/-- The mask `x > 0` on a possibly-unknown value (`NaN > 0` is false in pandas). -/
def oPos (x : Option ℚ) : Bool :=
  match x with
  | some v => decide (0 < v)
  | none => false

/-- The mask `x < 0` on a possibly-unknown value. -/
def oNegQ (x : Option ℚ) : Bool :=
  match x with
  | some v => decide (v < 0)
  | none => false

/-- `max()` of a pandas series: NaN (`none`) when no known value exists. -/
def maxQ : List ℚ → Option ℚ
  | [] => none
  | x :: xs => some (xs.foldl max x)

/-- Descending insertion of one value (for `sort_values(ascending=False)`). -/
def insDesc (x : ℚ) : List ℚ → List ℚ
  | [] => [x]
  | y :: ys => if x ≥ y then x :: y :: ys else y :: insDesc x ys

/-- Descending sort of the daily cost sums. -/
def sortDesc (l : List ℚ) : List ℚ := l.foldr insDesc []

/-- The hardcoded `days_2024` table of `compute_monthly_extras`. -/
def days_2024 : List ℕ := [31, 29, 31, 30, 31, 30, 31, 31, 30, 31, 30, 31]

/-- The 11 per-month KPI values produced by one iteration of the
`for m in months:` loop of `compute_monthly_extras`. -/
structure MonthKPI where
  accuracy : ℚ
  asym : Option ℚ
  cap : ℚ
  top5 : ℚ
  top5Share : ℚ
  revShare : ℚ
  posShare : ℚ
  negShare : ℚ
  prodHours : ℕ
  phShare : ℚ
  prodShare : ℚ
  deriving DecidableEq, Repr

/-- One iteration of the month loop of `compute_monthly_extras`, with the
pre-computed annual totals passed in. -/
def monthKPIAt (rows : List HRow) (totRev totProd : ℚ) (totPH : ℕ)
    (totPos totNeg : ℚ) (m : ℕ) : MonthKPI :=
  let mr := monthRows rows m
  let sumK := osum (mr.map HRow.kgup)
  let sumAbsImb := ((mr.filterMap HRow.deng).map (fun x => |x|)).sum
  let acc := if sumK > 0 then (1 - sumAbsImb / sumK) * 100 else 0
  let posDM := osum ((mr.filter fun r => oPos r.deng).map HRow.maliyeti)
  let negDM := osum ((mr.filter fun r => oNegQ r.deng).map HRow.maliyeti)
  let asym : Option ℚ := if negDM ≠ 0 then some (posDM / negDM) else none
  let maxK : Option ℚ := if mr.isEmpty then some 0 else maxQ (mr.filterMap HRow.kgup)
  let monthProd := osum (mr.map HRow.uretim)
  let cap :=
    match maxK.map fun x => x * 24 * (days_2024.getD (m - 1) 0 : ℚ) with
    | some p => if p > 0 then monthProd / p * 100 else 0
    | none => 0
  let dayKeys := (mr.filterMap HRow.tarih).dedup
  let daySums := dayKeys.map fun dk =>
    osum ((mr.filter fun r => r.tarih = some dk).map HRow.maliyeti)
  let top5 := if mr.isEmpty then 0 else ((sortDesc daySums).take 5).sum
  let monthDM := osum (mr.map HRow.maliyeti)
  let top5Share := if mr.isEmpty then 0 else if monthDM > 0 then top5 / monthDM * 100 else 0
  let monthRev := osum (mr.map HRow.net)
  let revShare := if totRev > 0 then monthRev / totRev * 100 else 0
  let posVol := osum ((mr.filter fun r => oPos r.deng).map HRow.deng)
  let negVol := (((mr.filter fun r => oNegQ r.deng).filterMap HRow.deng).map (fun x => |x|)).sum
  let posShare := if totPos > 0 then posVol / totPos * 100 else 0
  let negShare := if totNeg > 0 then negVol / totNeg * 100 else 0
  let ph := (mr.filter fun r => oPos r.uretim).length
  let phShare := if (0 : ℚ) < totPH then (ph : ℚ) / (totPH : ℚ) * 100 else 0
  let prodShare := if totProd > 0 then monthProd / totProd * 100 else 0
  ⟨acc, asym, cap, top5, top5Share, revShare, posShare, negShare, ph, phShare, prodShare⟩

/-- The returned dict of `compute_monthly_extras`: 11 per-month KPI vectors. -/
structure MonthlyExtras where
  accuracy_pct : List ℚ
  asym_ratio : List (Option ℚ)
  capacity_factor_pct : List ℚ
  top5_dm_tl : List ℚ
  top5_dm_share_pct : List ℚ
  revenue_share_pct : List ℚ
  pos_share_pct : List ℚ
  neg_share_pct : List ℚ
  prod_hours : List ℕ
  prod_hours_share_pct : List ℚ
  prod_share_pct : List ℚ
  deriving DecidableEq, Repr

/-- `compute_monthly_extras` of `streamlit_app.py`: annual totals, then the month
loop over `months = range(1, 13)` appending one value per KPI per month. -/
def compute_monthly_extras (rows : List HRow) : MonthlyExtras :=
  let totRev := osum (rows.map HRow.net)
  let totProd := osum (rows.map HRow.uretim)
  let totPH := (rows.filter fun r => oPos r.uretim).length
  let totPos := osum ((rows.filter fun r => oPos r.deng).map HRow.deng)
  let totNeg := (((rows.filter fun r => oNegQ r.deng).filterMap HRow.deng).map (fun x => |x|)).sum
  let ks := (List.range 12).map fun i => monthKPIAt rows totRev totProd totPH totPos totNeg (i + 1)
  ⟨ks.map MonthKPI.accuracy, ks.map MonthKPI.asym, ks.map MonthKPI.cap,
    ks.map MonthKPI.top5, ks.map MonthKPI.top5Share, ks.map MonthKPI.revShare,
    ks.map MonthKPI.posShare, ks.map MonthKPI.negShare, ks.map MonthKPI.prodHours,
    ks.map MonthKPI.phShare, ks.map MonthKPI.prodShare⟩

/-! ### Comparison-sheet formula block (`streamlit_app.py`, report generation)

Each plant block of the `Karşılaştırma` sheet is 13 rows (12 months + `Toplam`) by
9 summary columns; the cells written by `wsC.write` are static contents, the cells
written by `wsC.write_formula` are formulas.  Formula text is modelled as an
abstract syntax mirroring exactly the written strings: `sumifF c` is
`=SUMIF('<detail>'!$B$2:$B$N, A<row>, '<detail>'!$<c>$2:$<c>$N)` (the criterion
range is the detail sheet's whole `Ay` column, the criterion is the block's own
month cell in column A of the same row, the sum range is the detail-sheet column
holding `c`), `ifdivF n d` is `=IF(<d><row>=0,0,<n><row>/<d><row>)` over columns of
the same block row, and `sumTopF c` is `=SUM(<c>4:<c>15)`, the 12 month cells of
column `c` of the block.  The 11 extended-KPI columns are written as static values
and are not part of the claim; they are omitted from the grid.  Evaluation below is
the standard recalculation semantics of these three formula forms, with blank
(unknown) detail cells ignored by SUMIF. -/

/-- The six detail-sheet columns referenced by the generated SUMIF formulas
(`col_map` lookups `Gerçekleşen Üretim`, `Dengesizlik Miktarı`, `GÖP Geliri`,
`Dengesizlik Tutarı`, `Toplam (Net) Gelir`, `Dengesizlik Maliyeti`). -/
inductive DCol
  | uretimC
  | dengC
  | gopC
  | tutariC
  | netC
  | maliyetiC
  deriving DecidableEq, Repr

/-- The detail-sheet column values for a SUMIF sum range. -/
def colVal : DCol → HRow → Option ℚ
  | .uretimC => HRow.uretim
  | .dengC => HRow.deng
  | .gopC => HRow.gop
  | .tutariC => HRow.tutari
  | .netC => HRow.net
  | .maliyetiC => HRow.maliyeti

/-- A written cell of the comparison block. -/
inductive CCell
  | num (q : ℚ)
  | lab (s : String)
  | sumifF (c : DCol)
  | ifdivF (numc denc : ℕ)
  | sumTopF (c : ℕ)
  deriving DecidableEq, Repr

/-- Is the cell written with `wsC.write_formula` (as opposed to `wsC.write`)? -/
def CCell.isFormula : CCell → Bool
  | .num _ => false
  | .lab _ => false
  | _ => true

/-- One plant block of the comparison sheet, as generated by the
`for i in range(12):` loop and the totals-row writes of `streamlit_app.py`
(grid row `i < 12` is sheet row `3 + i`, grid row 12 the totals row; grid column
`j` is sheet column `j`). -/
def compBlock : List (List CCell) :=
  ((List.range 12).map fun i =>
    [.num ((i : ℚ) + 1), .sumifF .uretimC, .sumifF .dengC, .sumifF .gopC,
     .sumifF .tutariC, .sumifF .netC, .ifdivF 5 1, .sumifF .maliyetiC, .ifdivF 7 1])
  ++ [[.lab "Toplam", .sumTopF 1, .sumTopF 2, .sumTopF 3, .sumTopF 4, .sumTopF 5,
       .ifdivF 5 1, .sumTopF 7, .ifdivF 7 1]]

/-- SUMIF criterion match of a detail-sheet `Ay` cell against a numeric criterion
(a blank cell matches no number). -/
def ayMatches (r : HRow) (crit : ℚ) : Bool :=
  match r.ay with
  | some a => decide ((a : ℚ) = crit)
  | none => false

/-- Recalculation of one SUMIF formula over the detail sheet: sum of the sum-range
cells whose criterion-range cell equals the criterion; blank cells add nothing. -/
def sumifEval (d : List HRow) (c : DCol) (crit : ℚ) : ℚ :=
  (d.map fun r => if ayMatches r crit then (colVal c r).getD 0 else 0).sum

/-- The cell of grid `g` at row `r`, column `c`. -/
def cellAt (g : List (List CCell)) (r c : ℕ) : CCell := (g.getD r []).getD c (.num 0)

/-- Recalculation of a cell: values and labels (a label is a text cell whose numeric
value in arithmetic is 0) are immediate; the three formula forms resolve the cells
they reference; `fuel` bounds the reference depth (the generated block's reference
chains have depth at most 4). -/
def evalCell (d : List HRow) (g : List (List CCell)) : ℕ → ℕ → CCell → ℚ
  | 0, _, _ => 0
  | fuel + 1, r, cell =>
    match cell with
    | .num q => q
    | .lab _ => 0
    | .sumifF c => sumifEval d c (evalCell d g fuel r (cellAt g r 0))
    | .ifdivF nc dc =>
      let den := evalCell d g fuel r (cellAt g r dc)
      if den = 0 then 0 else evalCell d g fuel r (cellAt g r nc) / den
    | .sumTopF c => ((List.range 12).map fun i => evalCell d g fuel i (cellAt g i c)).sum

/-- Recalculated numeric contents of the whole block over detail table `d`. -/
def evalGrid (d : List HRow) : List (List ℚ) :=
  (List.range 13).map fun r => (List.range 9).map fun c => evalCell d compBlock 4 r (cellAt compBlock r c)

/-- The in-memory `build_monthly_summary` numbers arranged on the same grid
(column 0 carries the month number for month rows and 0 for the `"Toplam"` label
cell, whose numeric value in arithmetic is 0). -/
def summaryGrid (d : List HRow) : List (List ℚ) :=
  (List.range 13).map fun r : ℕ =>
    [if r < 12 then (r : ℚ) + 1 else 0,
      ((build_monthly_summary d).getD r msZero).uretim,
      ((build_monthly_summary d).getD r msZero).deng,
      ((build_monthly_summary d).getD r msZero).gop,
      ((build_monthly_summary d).getD r msZero).tutari,
      ((build_monthly_summary d).getD r msZero).net,
      ((build_monthly_summary d).getD r msZero).birimGelir,
      ((build_monthly_summary d).getD r msZero).maliyeti,
      ((build_monthly_summary d).getD r msZero).birimDM]

/-- Concrete hourly row: one January hour with `URETIM = 1`, `Net_Gelir = 1`. -/
def exRowA : HRow :=
  ⟨some "2024-01-01", some 1, "00:00", none, none, none, none, none, some 1, none,
    none, none, some 1, some 0, none⟩

/-- Concrete hourly row: one February hour with `URETIM = 3`, `Net_Gelir = 6`. -/
def exRowB : HRow :=
  ⟨some "2024-02-01", some 2, "00:00", none, none, none, none, none, some 3, none,
    none, none, some 6, some 0, none⟩

/-- Concrete timestamp 2024-01-01 00:00. -/
def exT0 : Ts := ⟨2024, 1, 1, 0, 0⟩

/-- Concrete timestamp 2024-01-01 01:00. -/
def exT1 : Ts := ⟨2024, 1, 1, 1, 0⟩

/-- One-row generation-plan table at `exT0`. -/
def exKgup : List KgupRow := [⟨some exT0, some "2024-01-01", "00:00", some 10⟩]

/-- One-row realized-generation table at `exT0`. -/
def exUretim : List UretimRow := [⟨some exT0, some 12⟩]

/-- One-row price table at `exT1` only (no price for the joined hour `exT0`). -/
def exPtf : List PtfRow := [⟨some exT1, some 100⟩]

/-- One-row system-marginal-price table at `exT1` only. -/
def exSmf : List SmfRow := [⟨some exT1, some 110⟩]

/-- The joined table produced from the four example tables: the `exT0` hour is kept
with both price fields unknown. -/
def exJoined : List JoinedRow :=
  [⟨some exT0, some "2024-01-01", "00:00", some 10, some 12, none, none⟩]

/-! ## Theorems -/

/-- Element of a mapped range at an in-bounds index. -/
theorem mapRange_getD {α : Type} (f : ℕ → α) (n i : ℕ) (d : α) (h : i < n) :
    ((List.range n).map f).getD i d = f i := by
  simp [List.getD_eq_getElem?_getD, List.getElem?_map, List.getElem?_range h]

/-- The letter characters used by `_col_letter` decode to their alphabet position. -/
theorem charAZ_toNat : ∀ r : Fin 26, (Char.ofNat (65 + r.val)).toNat = 65 + r.val := by
  decide

/-- With fuel above the index, the fuel parameter of `colLetterAux` is irrelevant and
the produced numeral has bijective base-26 value `n + 1`. -/
theorem lettersVal_colLetterAux :
    ∀ fuel n : ℕ, n < fuel → lettersVal (colLetterAux n fuel) = n + 1 := by
  intro fuel
  induction fuel with
  | zero => intro n h; omega
  | succ fuel ih =>
    intro n h
    rw [colLetterAux]
    by_cases h26 : n < 26
    · have hv := charAZ_toNat ⟨n, h26⟩
      simp only [if_pos h26, lettersVal, List.foldl_cons, List.foldl_nil]
      simp only at hv
      omega
    · have hle : 26 ≤ n := Nat.le_of_not_lt h26
      have hdiv : n / 26 < n := Nat.div_lt_self (by omega) (by omega)
      have h1 : 1 ≤ n / 26 := Nat.div_pos hle (by omega)
      have hrec := ih (n / 26 - 1) (by omega)
      have hmod : n % 26 < 26 := Nat.mod_lt _ (by omega)
      have hv := charAZ_toNat ⟨n % 26, hmod⟩
      simp only at hv
      have hdm := Nat.div_add_mod n 26
      simp only [if_neg h26, lettersVal, List.foldl_append, List.foldl_cons,
        List.foldl_nil] at hrec ⊢
      rw [hrec, hv]
      omega

/-- The bijective base-26 value of `_col_letter n` is `n + 1`. -/
theorem lettersVal_col_letter (n : ℕ) : lettersVal (col_letter n).data = n + 1 :=
  lettersVal_colLetterAux (n + 1) n (Nat.lt_succ_self n)

/-- C9: `_col_letter` is the bijective base-26 (no digit zero) spreadsheet column
encoding of a zero-based index: `0 ↦ "A"`, `25 ↦ "Z"`, `26 ↦ "AA"`; it is injective;
and in general its output at index `n` is the unique base-26 letter numeral
(A=1, ..., Z=26) of value `n + 1`, which is exactly the `n`-th element of the
standard column sequence A, B, ..., Z, AA, .... -/
theorem C9_col_letter_encoding :
    col_letter 0 = "A" ∧ col_letter 25 = "Z" ∧ col_letter 26 = "AA" ∧
    (∀ a b : ℕ, col_letter a = col_letter b → a = b) ∧
    (∀ n : ℕ, lettersVal (col_letter n).data = n + 1) := by
  refine ⟨by decide, by decide, by decide, ?_, lettersVal_col_letter⟩
  intro a b h
  have ha := lettersVal_col_letter a
  rw [h, lettersVal_col_letter b] at ha
  omega

/-- C9 witness: the injectivity implication discharged at a concrete input. -/
theorem C9_col_letter_encoding_witness : (3 : ℕ) = 3 ∧ col_letter 27 = "AB" :=
  ⟨C9_col_letter_encoding.2.2.2.1 3 3 rfl, by decide⟩

/-- The derived-column block evaluated on a row with all four inputs known,
field by field. -/
theorem computeRow_fields (ts : Option Ts) (tr : Option String) (sa : String)
    (p s k u : ℚ) :
    (computeRow ⟨ts, tr, sa, some k, some u, some p, some s⟩).pozDF
        = some (min p s * (97 / 100)) ∧
      (computeRow ⟨ts, tr, sa, some k, some u, some p, some s⟩).negDF
        = some (max p s * (103 / 100)) ∧
      (computeRow ⟨ts, tr, sa, some k, some u, some p, some s⟩).deng = some (u - k) ∧
      (computeRow ⟨ts, tr, sa, some k, some u, some p, some s⟩).gop = some (k * p) ∧
      (computeRow ⟨ts, tr, sa, some k, some u, some p, some s⟩).tutari
        = some (settleTut p s k u) ∧
      (computeRow ⟨ts, tr, sa, some k, some u, some p, some s⟩).net
        = some (settleNet p s k u) ∧
      (computeRow ⟨ts, tr, sa, some k, some u, some p, some s⟩).maliyeti
        = some (settleMal p s k u) ∧
      (computeRow ⟨ts, tr, sa, some k, some u, some p, some s⟩).birim
        = some (settleBirim p s k u) := by
  have htut : (computeRow ⟨ts, tr, sa, some k, some u, some p, some s⟩).tutari
      = some (settleTut p s k u) := by
    show optMul (some (u - k)) (if u - k ≥ 0 then some (min p s * (97 / 100))
      else some (max p s * (103 / 100))) = some (settleTut p s k u)
    unfold settleTut
    by_cases hd : u - k ≥ 0
    · rw [if_pos hd, if_pos hd]; rfl
    · rw [if_neg hd, if_neg hd]; rfl
  have hnet : (computeRow ⟨ts, tr, sa, some k, some u, some p, some s⟩).net
      = some (settleNet p s k u) := by
    show optAdd (some (k * p))
      (computeRow ⟨ts, tr, sa, some k, some u, some p, some s⟩).tutari
      = some (settleNet p s k u)
    rw [htut]
    unfold settleNet
    rfl
  have hmal : (computeRow ⟨ts, tr, sa, some k, some u, some p, some s⟩).maliyeti
      = some (settleMal p s k u) := by
    show ((optSub (some (u * p))
      (computeRow ⟨ts, tr, sa, some k, some u, some p, some s⟩).net).map
        fun x => max x 0) = some (settleMal p s k u)
    rw [hnet]
    unfold settleMal
    rfl
  have hbir : (computeRow ⟨ts, tr, sa, some k, some u, some p, some s⟩).birim
      = some (settleBirim p s k u) := by
    show (if u = 0 then some (0 : ℚ)
        else ((computeRow ⟨ts, tr, sa, some k, some u, some p, some s⟩).maliyeti).map
          fun c => c / u)
      = some (settleBirim p s k u)
    rw [hmal]
    unfold settleBirim
    by_cases hu : u = 0
    · rw [if_pos hu, if_pos hu]
    · rw [if_neg hu, if_neg hu]
      rfl
  exact ⟨rfl, rfl, rfl, rfl, htut, hnet, hmal, hbir⟩

/-- Every month has at least one day. -/
theorem dim_pos (mi : ℕ) : 1 ≤ dim mi := by
  unfold dim daysInMonthNum
  split
  · split <;> norm_num
  · split <;> norm_num

/-- `max(start_dt, cursor)` for a cursor at or after the start month. -/
theorem dmax_start (s : MDate) (hs : s.valid) (cmi : ℕ) (h : s.mi ≤ cmi) :
    dmax s ⟨cmi, 1⟩ = if cmi = s.mi then s else ⟨cmi, 1⟩ := by
  obtain ⟨smi, sd⟩ := s
  unfold MDate.valid at hs
  simp only at hs h
  by_cases hc : cmi = smi
  · subst hc
    unfold dmax
    rw [if_pos rfl]
    by_cases hd : dle ⟨cmi, sd⟩ ⟨cmi, 1⟩
    · rw [if_pos hd]
      unfold dle at hd
      simp only at hd
      have : sd = 1 := by omega
      rw [this]
    · rw [if_neg hd]
  · have hlt : smi < cmi := by omega
    unfold dmax
    rw [if_pos (show dle ⟨smi, sd⟩ ⟨cmi, 1⟩ from Or.inl hlt), if_neg hc]

/-- `min(end_dt, next_month - timedelta(days=1))` for a cursor month at or before
the end month. -/
theorem dmin_end (e : MDate) (he : e.valid) (cmi : ℕ) (h : cmi ≤ e.mi) :
    dmin e ⟨cmi, dim cmi⟩ = if cmi = e.mi then e else ⟨cmi, dim cmi⟩ := by
  obtain ⟨emi, ed⟩ := e
  unfold MDate.valid at he
  simp only at he h
  by_cases hc : cmi = emi
  · subst hc
    unfold dmin
    rw [if_pos (show dle ⟨cmi, ed⟩ ⟨cmi, dim cmi⟩ from Or.inr ⟨rfl, he.2⟩),
      if_pos rfl]
  · have hlt : cmi < emi := by omega
    unfold dmin
    rw [if_neg (by unfold dle; simp only; omega), if_neg hc]

/-- Closed form of the `month_start_end_strings` loop: starting at cursor month
`cmi` with exactly enough fuel to reach the end month, the loop emits one clipped
period per remaining month. -/
theorem monthRangesAux_closed (s e : MDate) (hs : s.valid) (he : e.valid) :
    ∀ fuel cmi, s.mi ≤ cmi → cmi + fuel = e.mi + 1 →
      monthRangesAux s e cmi fuel
        = (List.range fuel).map fun k => periodAt s e (cmi + k) := by
  intro fuel
  induction fuel with
  | zero => intro cmi h1 h2; rfl
  | succ fuel ih =>
    intro cmi h1 h2
    have hcle : cmi ≤ e.mi := by omega
    have hcond : dle ⟨cmi, 1⟩ e := by
      unfold dle
      simp only
      rcases Nat.lt_or_ge cmi e.mi with h | h
      · exact Or.inl h
      · exact Or.inr ⟨by omega, he.1⟩
    rw [monthRangesAux, if_pos hcond, ih (cmi + 1) (by omega) (by omega)]
    have hhead : (dmax s ⟨cmi, 1⟩, dmin e ⟨cmi, dim cmi⟩) = periodAt s e cmi := by
      rw [dmax_start s hs cmi h1, dmin_end e he cmi hcle]
      rfl
    rw [hhead, List.range_succ_eq_map, List.map_cons, List.map_map]
    refine congrArg₂ List.cons ?_ ?_
    · rw [Nat.add_zero]
    · refine List.map_congr_left fun k hk => ?_
      show periodAt s e (cmi + 1 + k) = periodAt s e (cmi + (k + 1))
      exact congrArg (periodAt s e) (by omega)

/-- A date order fact: the month index is monotone along `dle`. -/
theorem dle_mi {a b : MDate} (h : dle a b) : a.mi ≤ b.mi := by
  unfold dle at h
  omega

/-- First component of an emitted period. -/
theorem periodAt_fst (s e : MDate) (c : ℕ) :
    (periodAt s e c).1 = if c = s.mi then s else ⟨c, 1⟩ := rfl

/-- Second component of an emitted period. -/
theorem periodAt_snd (s e : MDate) (c : ℕ) :
    (periodAt s e c).2 = if c = e.mi then e else ⟨c, dim c⟩ := rfl

/-- Month index of an emitted period's start, for a cursor at or after the start
month. -/
theorem periodAt_fst_mi (s e : MDate) (c : ℕ) (_h : s.mi ≤ c) :
    (periodAt s e c).1.mi = c := by
  rw [periodAt_fst]
  by_cases hc : c = s.mi
  · rw [if_pos hc]
    omega
  · rw [if_neg hc]

/-- Month index of an emitted period's end, for a cursor at or before the end
month. -/
theorem periodAt_snd_mi (s e : MDate) (c : ℕ) (_h : c ≤ e.mi) :
    (periodAt s e c).2.mi = c := by
  rw [periodAt_snd]
  by_cases hc : c = e.mi
  · rw [if_pos hc]
    omega
  · rw [if_neg hc]

/-- C2: `month_start_end_strings` on a valid ordered day range `start ≤ end`
returns one `(period_start, period_end)` pair per calendar month overlapped
(`end.mi − start.mi + 1` of them — hence exactly 1 for a single-day range and
exactly 3 for a range covering exactly 3 full months), rendered in the
`YYYY-MM-DDTHH:MM:SS+03:00` format of `ISO_FMT`; each period lies within a single
calendar month (the `k`-th in month `start.mi + k`, so the periods are ordered and
pairwise non-overlapping), periods are day-contiguous (each next period starts the
calendar day after the previous one ends), the first period starts at `start`, the
last ends at `end`, and a valid day lies in some period exactly when it lies in
`[start, end]` (the periods cover exactly the range); `end < start` instead fails
with the `InvalidRange` error before anything is emitted. -/
theorem C2_range_partitioner (s e : MDate) (hs : s.valid) (he : e.valid)
    (hse : dle s e) :
    ∃ ps : List (MDate × MDate),
      month_start_end s e = .ok ps ∧
      month_start_end_strings s e
        = .ok (ps.map fun pr => (isoFmt pr.1, isoFmt pr.2)) ∧
      ps.length = e.mi + 1 - s.mi ∧
      (s = e → ps.length = 1) ∧
      (e.mi = s.mi + 2 → ps.length = 3) ∧
      (∀ k, k < ps.length →
        (ps.getD k (⟨0, 1⟩, ⟨0, 1⟩)).1.mi = s.mi + k ∧
        (ps.getD k (⟨0, 1⟩, ⟨0, 1⟩)).2.mi = s.mi + k ∧
        dle (ps.getD k (⟨0, 1⟩, ⟨0, 1⟩)).1 (ps.getD k (⟨0, 1⟩, ⟨0, 1⟩)).2) ∧
      (∀ k1 k2 x, k1 < ps.length → k2 < ps.length →
        dle (ps.getD k1 (⟨0, 1⟩, ⟨0, 1⟩)).1 x → dle x (ps.getD k1 (⟨0, 1⟩, ⟨0, 1⟩)).2 →
        dle (ps.getD k2 (⟨0, 1⟩, ⟨0, 1⟩)).1 x → dle x (ps.getD k2 (⟨0, 1⟩, ⟨0, 1⟩)).2 →
        k1 = k2) ∧
      (ps.getD 0 (⟨0, 1⟩, ⟨0, 1⟩)).1 = s ∧
      (ps.getD (ps.length - 1) (⟨0, 1⟩, ⟨0, 1⟩)).2 = e ∧
      (∀ k, k + 1 < ps.length →
        (ps.getD (k + 1) (⟨0, 1⟩, ⟨0, 1⟩)).1
          = nextDay (ps.getD k (⟨0, 1⟩, ⟨0, 1⟩)).2) ∧
      (∀ x : MDate, x.valid →
        ((dle s x ∧ dle x e) ↔ ∃ pr ∈ ps, dle pr.1 x ∧ dle x pr.2)) ∧
      (∀ q r : MDate, dlt r q →
        month_start_end_strings q r = .error "end_dt must be >= start_dt") := by
  have hmi : s.mi ≤ e.mi := dle_mi hse
  have hnot : ¬ dlt e s := by
    unfold dle at hse
    unfold dlt
    omega
  have hok : month_start_end s e
      = .ok ((List.range (e.mi + 1 - s.mi)).map fun k => periodAt s e (s.mi + k)) := by
    unfold month_start_end
    rw [if_neg hnot, monthRangesAux_closed s e hs he (e.mi + 1 - s.mi) s.mi
      (Nat.le_refl _) (by omega)]
  refine ⟨(List.range (e.mi + 1 - s.mi)).map fun k => periodAt s e (s.mi + k),
    hok, ?_, ?_, ?_, ?_, ?_, ?_, ?_, ?_, ?_, ?_, ?_⟩
  · unfold month_start_end_strings
    rw [hok]
    rfl
  · simp
  · intro h
    subst h
    simp
  · intro h
    simp only [List.length_map, List.length_range, h]
    omega
  · intro k hk
    have hk' : k < e.mi + 1 - s.mi := by simpa using hk
    rw [mapRange_getD _ _ _ _ hk']
    have hsc : s.mi ≤ s.mi + k := by omega
    have hce : s.mi + k ≤ e.mi := by omega
    refine ⟨periodAt_fst_mi s e _ hsc, periodAt_snd_mi s e _ hce, ?_⟩
    rw [periodAt_fst, periodAt_snd]
    by_cases hc1 : s.mi + k = s.mi <;> by_cases hc2 : s.mi + k = e.mi
    · rw [if_pos hc1, if_pos hc2]
      exact hse
    · rw [if_pos hc1, if_neg hc2]
      exact Or.inr ⟨hc1.symm, by rw [hc1]; exact hs.2⟩
    · rw [if_neg hc1, if_pos hc2]
      exact Or.inr ⟨hc2, he.1⟩
    · rw [if_neg hc1, if_neg hc2]
      exact Or.inr ⟨rfl, dim_pos _⟩
  · intro k1 k2 x hk1 hk2 ha1 hb1 ha2 hb2
    have hk1' : k1 < e.mi + 1 - s.mi := by simpa using hk1
    have hk2' : k2 < e.mi + 1 - s.mi := by simpa using hk2
    rw [mapRange_getD _ _ _ _ hk1'] at ha1 hb1
    rw [mapRange_getD _ _ _ _ hk2'] at ha2 hb2
    have l1 := dle_mi ha1
    have l2 := dle_mi hb1
    have l3 := dle_mi ha2
    have l4 := dle_mi hb2
    rw [periodAt_fst_mi s e _ (by omega)] at l1
    rw [periodAt_snd_mi s e _ (by omega)] at l2
    rw [periodAt_fst_mi s e _ (by omega)] at l3
    rw [periodAt_snd_mi s e _ (by omega)] at l4
    omega
  · have h0 : (0 : ℕ) < e.mi + 1 - s.mi := by omega
    rw [mapRange_getD _ _ _ _ h0]
    rw [Nat.add_zero, periodAt_fst, if_pos rfl]
  · have hlen : ((List.range (e.mi + 1 - s.mi)).map fun k =>
        periodAt s e (s.mi + k)).length = e.mi + 1 - s.mi := by simp
    rw [hlen]
    have hlast : e.mi + 1 - s.mi - 1 < e.mi + 1 - s.mi := by omega
    rw [mapRange_getD _ _ _ _ hlast]
    have hc : s.mi + (e.mi + 1 - s.mi - 1) = e.mi := by omega
    rw [hc, periodAt_snd, if_pos rfl]
  · intro k hk
    have hk' : k + 1 < e.mi + 1 - s.mi := by simpa using hk
    rw [mapRange_getD _ _ _ _ hk', mapRange_getD _ _ _ _ (by omega : k < e.mi + 1 - s.mi)]
    rw [periodAt_fst, periodAt_snd]
    rw [if_neg (by omega : ¬ s.mi + (k + 1) = s.mi),
      if_neg (by omega : ¬ s.mi + k = e.mi)]
    unfold nextDay
    dsimp only
    rw [if_neg (lt_irrefl _)]
    have hkk : s.mi + (k + 1) = s.mi + k + 1 := by omega
    rw [hkk]
  · intro x hx
    constructor
    · rintro ⟨h1, h2⟩
      have hx1 : s.mi ≤ x.mi := dle_mi h1
      have hx2 : x.mi ≤ e.mi := dle_mi h2
      have hk : x.mi - s.mi < e.mi + 1 - s.mi := by omega
      refine ⟨periodAt s e (s.mi + (x.mi - s.mi)), ?_, ?_, ?_⟩
      · exact List.mem_map.mpr ⟨x.mi - s.mi, List.mem_range.mpr hk, rfl⟩
      · have hc : s.mi + (x.mi - s.mi) = x.mi := by omega
        rw [hc, periodAt_fst]
        by_cases hcs : x.mi = s.mi
        · rw [if_pos hcs]
          exact h1
        · rw [if_neg hcs]
          exact Or.inr ⟨rfl, hx.1⟩
      · have hc : s.mi + (x.mi - s.mi) = x.mi := by omega
        rw [hc, periodAt_snd]
        by_cases hce : x.mi = e.mi
        · rw [if_pos hce]
          exact h2
        · rw [if_neg hce]
          exact Or.inr ⟨rfl, hx.2⟩
    · rintro ⟨pr, hmem, hpr1, hpr2⟩
      obtain ⟨k, hkmem, hkeq⟩ := List.mem_map.mp hmem
      have hk : k < e.mi + 1 - s.mi := List.mem_range.mp hkmem
      subst hkeq
      rw [periodAt_fst] at hpr1
      rw [periodAt_snd] at hpr2
      constructor
      · by_cases hc : s.mi + k = s.mi
        · rw [if_pos hc] at hpr1
          exact hpr1
        · rw [if_neg hc] at hpr1
          unfold dle at hpr1 ⊢
          dsimp only at hpr1
          omega
      · by_cases hc : s.mi + k = e.mi
        · rw [if_pos hc] at hpr2
          exact hpr2
        · rw [if_neg hc] at hpr2
          unfold dle at hpr2 ⊢
          dsimp only at hpr2
          omega
  · intro q r h
    unfold month_start_end_strings month_start_end
    rw [if_pos h]
    rfl

/-- C2 witness: a single-day January 2024 range yields one period, 1 March to
31 May 2024 yields three, and a reversed range fails with the invalid-range
error (month index `24288 = 12 × 2024` is January 2024). -/
theorem C2_range_partitioner_witness :
    (∃ ps : List (MDate × MDate),
      month_start_end ⟨24288, 5⟩ ⟨24288, 5⟩ = .ok ps ∧ ps.length = 1) ∧
    (∃ ps : List (MDate × MDate),
      month_start_end ⟨24290, 1⟩ ⟨24292, 31⟩ = .ok ps ∧ ps.length = 3) ∧
    month_start_end_strings ⟨24288, 9⟩ ⟨24288, 3⟩
      = .error "end_dt must be >= start_dt" := by
  obtain ⟨ps1, hok1, _, hlen1, _⟩ :=
    C2_range_partitioner ⟨24288, 5⟩ ⟨24288, 5⟩ (by decide) (by decide) (by decide)
  obtain ⟨ps2, hok2, _, hlen2, _, _, _, _, _, _, _, _, herr⟩ :=
    C2_range_partitioner ⟨24290, 1⟩ ⟨24292, 31⟩ (by decide) (by decide) (by decide)
  exact ⟨⟨ps1, hok1, hlen1.trans (by norm_num)⟩,
    ⟨ps2, hok2, hlen2.trans (by norm_num)⟩,
    herr ⟨24288, 9⟩ ⟨24288, 3⟩ (by decide)⟩

/-- C1: the settlement derivation of `build_plant_dataframe`.  For a joined row
whose four inputs are known: `Poz_DF = min(PTF, SMF) × 0.97`,
`Neg_DF = max(PTF, SMF) × 1.03`, `Dengesizlik = URETIM − KGUP`,
`GOP_Geliri = KGUP × PTF`, `Dengesizlik_Tutarı = Dengesizlik × Poz_DF` when
`Dengesizlik ≥ 0` and `Dengesizlik × Neg_DF` otherwise,
`Net_Gelir = GOP_Geliri + Dengesizlik_Tutarı`,
`Dengesizlik_Maliyeti = max(0, URETIM × PTF − Net_Gelir)`, and
`Birim_DM = Dengesizlik_Maliyeti / URETIM` for nonzero `URETIM` and `0` at
`URETIM = 0`; `Dengesizlik_Tutarı = 0` when the imbalance is unknown (either input
of `URETIM − KGUP` missing); the spec's concrete input
`PTF=500, SMF=520, KGUP=100, URETIM=120` yields exactly the listed values; and any
row with `URETIM = 0` has `Birim_DM = 0` whatever the other fields hold. -/
theorem C1_settlement_derivation :
    (∀ j : JoinedRow, ∀ p s k u : ℚ,
      j.ptf = some p → j.smf = some s → j.kgup = some k → j.uretim = some u →
      (computeRow j).pozDF = some (min p s * (97 / 100)) ∧
      (computeRow j).negDF = some (max p s * (103 / 100)) ∧
      (computeRow j).deng = some (u - k) ∧
      (computeRow j).gop = some (k * p) ∧
      (computeRow j).tutari = some (settleTut p s k u) ∧
      (computeRow j).net = some (settleNet p s k u) ∧
      (computeRow j).maliyeti = some (settleMal p s k u) ∧
      (computeRow j).birim = some (settleBirim p s k u)) ∧
    ((computeRow ⟨none, none, "00:00", some 100, some 120, some 500, some 520⟩).pozDF
        = some 485 ∧
      (computeRow ⟨none, none, "00:00", some 100, some 120, some 500, some 520⟩).negDF
        = some 535.6 ∧
      (computeRow ⟨none, none, "00:00", some 100, some 120, some 500, some 520⟩).deng
        = some 20 ∧
      (computeRow ⟨none, none, "00:00", some 100, some 120, some 500, some 520⟩).gop
        = some 50000 ∧
      (computeRow ⟨none, none, "00:00", some 100, some 120, some 500, some 520⟩).tutari
        = some 9700 ∧
      (computeRow ⟨none, none, "00:00", some 100, some 120, some 500, some 520⟩).net
        = some 59700 ∧
      (computeRow ⟨none, none, "00:00", some 100, some 120, some 500, some 520⟩).maliyeti
        = some 300 ∧
      (computeRow ⟨none, none, "00:00", some 100, some 120, some 500, some 520⟩).birim
        = some 2.5) ∧
    (∀ t tr sa (p s k : Option ℚ),
      (computeRow ⟨t, tr, sa, k, some 0, p, s⟩).birim = some 0) ∧
    (∀ t tr sa (p s u : Option ℚ),
      (computeRow ⟨t, tr, sa, none, u, p, s⟩).tutari = some 0) ∧
    (∀ t tr sa (p s k : Option ℚ),
      (computeRow ⟨t, tr, sa, k, none, p, s⟩).tutari = some 0) := by
  refine ⟨?_, ?_, ?_, ?_, ?_⟩
  · intro j p s k u hp hs hk hu
    obtain ⟨ts, tr, sa, jk, ju, jp, js⟩ := j
    simp only at hp hs hk hu
    subst hp hs hk hu
    exact computeRow_fields ts tr sa p s k u
  · have h := computeRow_fields none none "00:00" 500 520 100 120
    refine ⟨?_, ?_, ?_, ?_, ?_, ?_, ?_, ?_⟩
    · rw [h.1]; norm_num [min_def]
    · rw [h.2.1]; norm_num [max_def]
    · rw [h.2.2.1]; norm_num
    · rw [h.2.2.2.1]; norm_num
    · rw [h.2.2.2.2.1]; norm_num [settleTut, min_def, max_def]
    · rw [h.2.2.2.2.2.1]; norm_num [settleNet, settleTut, min_def, max_def]
    · rw [h.2.2.2.2.2.2.1]
      norm_num [settleMal, settleNet, settleTut, min_def, max_def]
    · rw [h.2.2.2.2.2.2.2]
      norm_num [settleBirim, settleMal, settleNet, settleTut, min_def, max_def]
  · intro t tr sa p s k
    simp [computeRow]
  · intro t tr sa p s u
    cases u <;> simp [computeRow, optSub, optMul, optAdd, pdMin2, pdMax2]
  · intro t tr sa p s k
    cases k <;> simp [computeRow, optSub, optMul, optAdd, pdMin2, pdMax2]

/-- C1 witness: the general field equations discharged at the spec's concrete
input. -/
theorem C1_settlement_derivation_witness :
    (computeRow ⟨none, none, "00:00", some 100, some 120, some 500, some 520⟩).deng =
      some (120 - 100) ∧
    (computeRow ⟨none, none, "00:00", some 100, some 120, some 500, some 520⟩).birim =
      some (settleBirim 500 520 100 120) := by
  have h := C1_settlement_derivation.1 ⟨none, none, "00:00", some 100, some 120,
    some 500, some 520⟩ 500 520 100 120 rfl rfl rfl rfl
  exact ⟨h.2.2.1, h.2.2.2.2.2.2.2⟩

/-- The 12 month rows of `build_monthly_summary` at their positions. -/
theorem build_monthly_summary_month (rows : List HRow) (i : ℕ) (h : i < 12) :
    (build_monthly_summary rows).getD i msZero = aggMonth rows (i + 1) := by
  simp only [build_monthly_summary]
  rw [List.getD_eq_getElem?_getD, List.getElem?_append, if_pos (by simpa using h)]
  simp [List.getElem?_map, List.getElem?_range h]

/-- The totals row of `build_monthly_summary` at position 12. -/
theorem build_monthly_summary_total (rows : List HRow) :
    (build_monthly_summary rows).getD 12 msZero =
      (let monthly := (List.range 12).map fun i => aggMonth rows (i + 1)
       let tu := (monthly.map MSRow.uretim).sum
       let tn := (monthly.map MSRow.net).sum
       let tm := (monthly.map MSRow.maliyeti).sum
       ⟨tu, (monthly.map MSRow.deng).sum, (monthly.map MSRow.gop).sum,
        (monthly.map MSRow.tutari).sum, tn, if tu = 0 then 0 else tn / tu, tm,
        if tu = 0 then 0 else tm / tu⟩) := by
  simp only [build_monthly_summary]
  rw [List.getD_eq_getElem?_getD, List.getElem?_append, if_neg (by simp)]
  simp

/-- An input month with no rows aggregates to the all-zero row. -/
theorem aggMonth_empty (rows : List HRow) (m : ℕ) (h : monthRows rows m = []) :
    aggMonth rows m = msZero := by
  simp only [aggMonth, h]
  rfl

/-- C5: `build_monthly_summary` returns 13 rows: the 12 calendar months in order
(position `i < 12` holds month `i + 1`, aggregated over exactly that month's input
rows, and a month with no input rows is present with all sums and ratios 0),
followed by a `"Toplam"` row whose six summed columns each equal the sum of the 12
monthly sums above, and whose two unit ratios are recomputed from the totals
(`Σ Net_Gelir / Σ URETIM` and `Σ Dengesizlik_Maliyeti / Σ URETIM`, `0` when the
total `URETIM` is 0); on the concrete two-row table `[exRowA, exRowB]` the total
`Birim Gelir` differs from the mean of the 12 monthly ratios, so the totals row is
summed-then-divided, not ratio-averaged. -/
theorem C5_monthly_aggregation :
    (∀ rows : List HRow,
      (build_monthly_summary rows).length = 13 ∧
      (∀ i, i < 12 →
        (build_monthly_summary rows).getD i msZero = aggMonth rows (i + 1)) ∧
      (∀ m, monthRows rows m = [] → aggMonth rows m = msZero) ∧
      ((build_monthly_summary rows).getD 12 msZero).uretim
        = ((List.range 12).map fun i =>
            ((build_monthly_summary rows).getD i msZero).uretim).sum ∧
      ((build_monthly_summary rows).getD 12 msZero).deng
        = ((List.range 12).map fun i =>
            ((build_monthly_summary rows).getD i msZero).deng).sum ∧
      ((build_monthly_summary rows).getD 12 msZero).gop
        = ((List.range 12).map fun i =>
            ((build_monthly_summary rows).getD i msZero).gop).sum ∧
      ((build_monthly_summary rows).getD 12 msZero).tutari
        = ((List.range 12).map fun i =>
            ((build_monthly_summary rows).getD i msZero).tutari).sum ∧
      ((build_monthly_summary rows).getD 12 msZero).net
        = ((List.range 12).map fun i =>
            ((build_monthly_summary rows).getD i msZero).net).sum ∧
      ((build_monthly_summary rows).getD 12 msZero).maliyeti
        = ((List.range 12).map fun i =>
            ((build_monthly_summary rows).getD i msZero).maliyeti).sum ∧
      ((build_monthly_summary rows).getD 12 msZero).birimGelir
        = (if ((build_monthly_summary rows).getD 12 msZero).uretim = 0 then 0
           else ((build_monthly_summary rows).getD 12 msZero).net
             / ((build_monthly_summary rows).getD 12 msZero).uretim) ∧
      ((build_monthly_summary rows).getD 12 msZero).birimDM
        = (if ((build_monthly_summary rows).getD 12 msZero).uretim = 0 then 0
           else ((build_monthly_summary rows).getD 12 msZero).maliyeti
             / ((build_monthly_summary rows).getD 12 msZero).uretim)) ∧
    ((build_monthly_summary [exRowA, exRowB]).getD 12 msZero).birimGelir
      ≠ (((List.range 12).map fun i =>
          ((build_monthly_summary [exRowA, exRowB]).getD i msZero).birimGelir).sum)
        / 12 := by
  constructor
  · intro rows
    have hget := build_monthly_summary_month rows
    have htot := build_monthly_summary_total rows
    have hmap : ∀ g : MSRow → ℚ,
        ((List.range 12).map fun i =>
          g ((build_monthly_summary rows).getD i msZero))
        = (List.range 12).map fun i => g (aggMonth rows (i + 1)) := fun g =>
      List.map_congr_left fun i hi => by rw [hget i (List.mem_range.mp hi)]
    refine ⟨by simp [build_monthly_summary], hget, fun m h => aggMonth_empty rows m h,
      ?_, ?_, ?_, ?_, ?_, ?_, ?_, ?_⟩
    · rw [htot, hmap MSRow.uretim]; simp only [List.map_map]; rfl
    · rw [htot, hmap MSRow.deng]; simp only [List.map_map]; rfl
    · rw [htot, hmap MSRow.gop]; simp only [List.map_map]; rfl
    · rw [htot, hmap MSRow.tutari]; simp only [List.map_map]; rfl
    · rw [htot, hmap MSRow.net]; simp only [List.map_map]; rfl
    · rw [htot, hmap MSRow.maliyeti]; simp only [List.map_map]; rfl
    · rw [htot]
    · rw [htot]
  · norm_num [build_monthly_summary, aggMonth, monthRows, osum, exRowA, exRowB,
      msZero, List.range_succ, List.filterMap_cons, List.filterMap_nil]

/-- C5 witness: length, a month row, and zero-filling of an absent month on a
concrete one-row table. -/
theorem C5_monthly_aggregation_witness :
    (build_monthly_summary [exRowA]).length = 13 ∧
    (build_monthly_summary [exRowA]).getD 0 msZero = aggMonth [exRowA] 1 ∧
    aggMonth [exRowA] 5 = msZero := by
  have h := C5_monthly_aggregation.1 [exRowA]
  exact ⟨h.1, h.2.1 0 (by norm_num), h.2.2.1 5 (by decide)⟩

/-- A month with no input rows yields the default KPI tuple: 0 for every
zero-guarded ratio, count and sum, and the undefined marker for the
cost-asymmetry ratio. -/
theorem monthKPIAt_empty (rows : List HRow) (totRev totProd : ℚ) (totPH : ℕ)
    (totPos totNeg : ℚ) (m : ℕ) (h : monthRows rows m = []) :
    monthKPIAt rows totRev totProd totPH totPos totNeg m
      = ⟨0, none, 0, 0, 0, 0, 0, 0, 0, 0, 0⟩ := by
  simp only [monthKPIAt, h]
  norm_num [osum]

/-- C7: the cost-asymmetry KPI of `compute_monthly_extras` is, per month, the sum
of `Dengesizlik_Maliyeti` over the month's hours with `Dengesizlik > 0` divided by
the sum over the hours with `Dengesizlik < 0`, and it is the undefined marker
(`none`, rendered blank) — never `0` — exactly when that denominator is `0`; in
contrast, on an input with every denominator zero (the empty table) the other
ratio KPIs (revenue share shown here) all default to `0` while the asymmetry
column is all-`none`. -/
theorem C7_cost_asymmetry :
    (∀ rows : List HRow,
      (compute_monthly_extras rows).asym_ratio = (List.range 12).map fun i =>
        if osum (((monthRows rows (i + 1)).filter fun r => oNegQ r.deng).map
            HRow.maliyeti) = 0 then none
        else some
          (osum (((monthRows rows (i + 1)).filter fun r => oPos r.deng).map
              HRow.maliyeti)
            / osum (((monthRows rows (i + 1)).filter fun r => oNegQ r.deng).map
              HRow.maliyeti))) ∧
    (compute_monthly_extras []).asym_ratio = List.replicate 12 none ∧
    (compute_monthly_extras []).revenue_share_pct = List.replicate 12 0 := by
  have hmain : ∀ rows : List HRow,
      (compute_monthly_extras rows).asym_ratio = (List.range 12).map fun i =>
        if osum (((monthRows rows (i + 1)).filter fun r => oNegQ r.deng).map
            HRow.maliyeti) = 0 then none
        else some
          (osum (((monthRows rows (i + 1)).filter fun r => oPos r.deng).map
              HRow.maliyeti)
            / osum (((monthRows rows (i + 1)).filter fun r => oNegQ r.deng).map
              HRow.maliyeti)) := by
    intro rows
    simp only [compute_monthly_extras, List.map_map]
    refine List.map_congr_left fun i hi => ?_
    by_cases h : osum (((monthRows rows (i + 1)).filter fun r => oNegQ r.deng).map
        HRow.maliyeti) = 0
    · simp [monthKPIAt, h]
    · simp [monthKPIAt, h]
  refine ⟨hmain, ?_, ?_⟩
  · rw [hmain []]
    have h0 : ∀ m : ℕ, monthRows ([] : List HRow) m = [] := fun _ => rfl
    simp [h0, osum]
  · simp only [compute_monthly_extras, List.map_map]
    have : ∀ i ∈ List.range 12,
        (MonthKPI.revShare ∘ fun i => monthKPIAt [] (osum (([] : List HRow).map HRow.net))
          (osum (([] : List HRow).map HRow.uretim))
          ((([] : List HRow).filter fun r => oPos r.uretim).length)
          (osum ((([] : List HRow).filter fun r => oPos r.deng).map HRow.deng))
          ((((([] : List HRow).filter fun r => oNegQ r.deng).filterMap HRow.deng).map
            fun x => |x|).sum) (i + 1)) i = (fun _ : ℕ => (0 : ℚ)) i := by
      intro i hi
      simp only [Function.comp]
      rw [monthKPIAt_empty [] _ _ _ _ _ (i + 1) rfl]
    rw [List.map_congr_left this]
    decide

/-- C8: the capacity-factor KPI of `compute_monthly_extras` is, per month,
`(Σ monthly URETIM) / (max monthly KGUP × 24 × days_in_month) × 100` with result
`0` when the denominator is not positive (in particular when it is 0: no rows, no
known KGUP, or zero maximum), and the hardcoded `days_2024` table used for
`days_in_month` equals, entry for entry, the leap-aware day count of each calendar
month of analysis year 2024 (the only year the app's date pickers admit):
29 days for February 2024 because 2024 is a leap year, against 28 in the non-leap
2023. -/
theorem C8_capacity_factor :
    (∀ rows : List HRow,
      (compute_monthly_extras rows).capacity_factor_pct = (List.range 12).map fun i =>
        if (maxQ ((monthRows rows (i + 1)).filterMap HRow.kgup)).getD 0 * 24
            * (daysInMonthNum 2024 (i + 1) : ℚ) > 0 then
          osum ((monthRows rows (i + 1)).map HRow.uretim)
            / ((maxQ ((monthRows rows (i + 1)).filterMap HRow.kgup)).getD 0 * 24
              * (daysInMonthNum 2024 (i + 1) : ℚ)) * 100
        else 0) ∧
    days_2024 = (List.range 12).map (fun i => daysInMonthNum 2024 (i + 1)) ∧
    isLeap 2024 = true ∧ daysInMonthNum 2024 2 = 29 ∧
    isLeap 2023 = false ∧ daysInMonthNum 2023 2 = 28 := by
  refine ⟨?_, by decide, by decide, by decide, by decide, by decide⟩
  intro rows
  simp only [compute_monthly_extras, List.map_map]
  refine List.map_congr_left fun i hi => ?_
  have hi12 : i < 12 := List.mem_range.mp hi
  have hdays : ((days_2024.getD (i + 1 - 1) 0 : ℕ) : ℚ)
      = ((daysInMonthNum 2024 (i + 1) : ℕ) : ℚ) := by
    norm_cast
    interval_cases i <;> rfl
  simp only [Function.comp, monthKPIAt]
  by_cases hemp : (monthRows rows (i + 1)).isEmpty
  · have hmr : monthRows rows (i + 1) = [] := List.isEmpty_iff.mp hemp
    simp [hemp, hmr, maxQ]
  · rcases hk : (monthRows rows (i + 1)).filterMap HRow.kgup with _ | ⟨x, xs⟩
    · simp [hemp, hk, maxQ]
    · simp only [hemp, Bool.false_eq_true, if_neg, ite_false, hk, maxQ,
        Option.map_some', Option.getD_some, hdays]

/-- C10: on any hourly table, `compute_monthly_extras` returns exactly 11 KPI
vectors, each of length exactly 12 (one entry per calendar month 1-12 in order,
whatever months occur in the input), and a month with no input rows receives the
per-KPI default: 0 for all zero-guarded ratios, sums and counts, the undefined
marker for the cost-asymmetry ratio. -/
theorem C10_extras_shape :
    ∀ rows : List HRow,
      ((compute_monthly_extras rows).accuracy_pct.length = 12 ∧
        (compute_monthly_extras rows).asym_ratio.length = 12 ∧
        (compute_monthly_extras rows).capacity_factor_pct.length = 12 ∧
        (compute_monthly_extras rows).top5_dm_tl.length = 12 ∧
        (compute_monthly_extras rows).top5_dm_share_pct.length = 12 ∧
        (compute_monthly_extras rows).revenue_share_pct.length = 12 ∧
        (compute_monthly_extras rows).pos_share_pct.length = 12 ∧
        (compute_monthly_extras rows).neg_share_pct.length = 12 ∧
        (compute_monthly_extras rows).prod_hours.length = 12 ∧
        (compute_monthly_extras rows).prod_hours_share_pct.length = 12 ∧
        (compute_monthly_extras rows).prod_share_pct.length = 12) ∧
      (∀ m, 1 ≤ m → m ≤ 12 → monthRows rows m = [] →
        (compute_monthly_extras rows).accuracy_pct.getD (m - 1) 1 = 0 ∧
        (compute_monthly_extras rows).asym_ratio.getD (m - 1) (some 0) = none ∧
        (compute_monthly_extras rows).capacity_factor_pct.getD (m - 1) 1 = 0 ∧
        (compute_monthly_extras rows).top5_dm_tl.getD (m - 1) 1 = 0 ∧
        (compute_monthly_extras rows).top5_dm_share_pct.getD (m - 1) 1 = 0 ∧
        (compute_monthly_extras rows).revenue_share_pct.getD (m - 1) 1 = 0 ∧
        (compute_monthly_extras rows).pos_share_pct.getD (m - 1) 1 = 0 ∧
        (compute_monthly_extras rows).neg_share_pct.getD (m - 1) 1 = 0 ∧
        (compute_monthly_extras rows).prod_hours.getD (m - 1) 1 = 0 ∧
        (compute_monthly_extras rows).prod_hours_share_pct.getD (m - 1) 1 = 0 ∧
        (compute_monthly_extras rows).prod_share_pct.getD (m - 1) 1 = 0) := by
  intro rows
  constructor
  · simp [compute_monthly_extras]
  · intro m h1 h12 hmr
    have hm : m - 1 < 12 := by omega
    have hm1 : m - 1 + 1 = m := by omega
    have hk := monthKPIAt_empty rows (osum (rows.map HRow.net))
      (osum (rows.map HRow.uretim)) ((rows.filter fun r => oPos r.uretim).length)
      (osum ((rows.filter fun r => oPos r.deng).map HRow.deng))
      ((((rows.filter fun r => oNegQ r.deng).filterMap HRow.deng).map
        fun x => |x|).sum) m hmr
    simp only [compute_monthly_extras, List.map_map]
    repeat' constructor
    all_goals
      rw [mapRange_getD _ 12 (m - 1) _ hm]
      simp only [Function.comp, hm1, hk]

/-- The left price join never drops a row: its per-key match list is nonempty. -/
theorem leftJoinPtf_ne_nil (ptf : List PtfRow) (t : Option Ts) :
    leftJoinPtf ptf t ≠ [] := by
  unfold leftJoinPtf
  cases hf : ptf.filter (fun p => p.ts = t) with
  | nil => simp [hf]
  | cons a as => simp [hf]

/-- The left system-marginal-price join never drops a row. -/
theorem leftJoinSmf_ne_nil (smf : List SmfRow) (t : Option Ts) :
    leftJoinSmf smf t ≠ [] := by
  unfold leftJoinSmf
  cases hf : smf.filter (fun p => p.ts = t) with
  | nil => simp [hf]
  | cons a as => simp [hf]

/-- A key with no match in the price table left-joins to a single unknown value. -/
theorem leftJoinPtf_not_mem (ptf : List PtfRow) (t : Option Ts)
    (h : t ∉ ptf.map PtfRow.ts) : leftJoinPtf ptf t = [none] := by
  unfold leftJoinPtf
  have hf : ptf.filter (fun p => p.ts = t) = [] := by
    rw [List.filter_eq_nil_iff]
    intro p hp
    simp only [decide_eq_true_eq]
    intro hpt
    exact h (List.mem_map.mpr ⟨p, hp, hpt⟩)
  rw [hf]

/-- A key with no match in the system-marginal-price table left-joins to a single
unknown value. -/
theorem leftJoinSmf_not_mem (smf : List SmfRow) (t : Option Ts)
    (h : t ∉ smf.map SmfRow.ts) : leftJoinSmf smf t = [none] := by
  unfold leftJoinSmf
  have hf : smf.filter (fun p => p.ts = t) = [] := by
    rw [List.filter_eq_nil_iff]
    intro p hp
    simp only [decide_eq_true_eq]
    intro hpt
    exact h (List.mem_map.mpr ⟨p, hp, hpt⟩)
  rw [hf]

/-- Inner-join key characterization: a timestamp appears among the joined keys
exactly when it appears in both input streams. -/
theorem mem_innerMerge_ts (kgup : List KgupRow) (uretim : List UretimRow)
    (t : Option Ts) :
    t ∈ (innerMergeUretim kgup uretim).map (fun kv => kv.1.ts)
      ↔ t ∈ kgup.map KgupRow.ts ∧ t ∈ uretim.map UretimRow.ts := by
  unfold innerMergeUretim
  constructor
  · intro h
    obtain ⟨kv, hkv, hts⟩ := List.mem_map.mp h
    obtain ⟨a, ha, hmem2⟩ := List.mem_flatMap.mp hkv
    obtain ⟨b, hbmem, hab⟩ := List.mem_map.mp hmem2
    obtain ⟨hbu, hbts⟩ := List.mem_filter.mp hbmem
    subst hab
    have hb' : b.ts = a.ts := by simpa using hbts
    exact ⟨List.mem_map.mpr ⟨a, ha, hts⟩,
      List.mem_map.mpr ⟨b, hbu, by rw [hb']; exact hts⟩⟩
  · rintro ⟨h1, h2⟩
    obtain ⟨a, ha, hat⟩ := List.mem_map.mp h1
    obtain ⟨b, hb, hbt⟩ := List.mem_map.mp h2
    refine List.mem_map.mpr ⟨(a, b), ?_, hat⟩
    refine List.mem_flatMap.mpr ⟨a, ha, ?_⟩
    refine List.mem_map.mpr ⟨b, ?_, rfl⟩
    refine List.mem_filter.mpr ⟨hb, ?_⟩
    have hba : b.ts = a.ts := by rw [hbt, hat]
    simp [hba]

/-- The two left price joins change no keys: the key multiset of the fully joined
table is that of the plan-realized inner join. -/
theorem mem_joinRows_ts (joined : List (KgupRow × UretimRow)) (ptf : List PtfRow)
    (smf : List SmfRow) (t : Option Ts) :
    t ∈ (joined.flatMap fun kv =>
        (leftJoinPtf ptf kv.1.ts).flatMap fun pv =>
          (leftJoinSmf smf kv.1.ts).map fun sv =>
            (⟨kv.1.ts, kv.1.tarih, kv.1.saat, kv.1.kgup, kv.2.uretim, pv, sv⟩ :
              JoinedRow)).map JoinedRow.ts
      ↔ t ∈ joined.map fun kv => kv.1.ts := by
  constructor
  · intro h
    obtain ⟨r, hr, hts⟩ := List.mem_map.mp h
    obtain ⟨kv, hkv, hr2⟩ := List.mem_flatMap.mp hr
    obtain ⟨pv, hpv, hr3⟩ := List.mem_flatMap.mp hr2
    obtain ⟨sv, hsv, hr4⟩ := List.mem_map.mp hr3
    subst hr4
    exact List.mem_map.mpr ⟨kv, hkv, hts⟩
  · intro h
    obtain ⟨kv, hkv, hts⟩ := List.mem_map.mp h
    obtain ⟨pv, hpv⟩ := List.exists_mem_of_ne_nil _ (leftJoinPtf_ne_nil ptf kv.1.ts)
    obtain ⟨sv, hsv⟩ := List.exists_mem_of_ne_nil _ (leftJoinSmf_ne_nil smf kv.1.ts)
    refine List.mem_map.mpr
      ⟨⟨kv.1.ts, kv.1.tarih, kv.1.saat, kv.1.kgup, kv.2.uretim, pv, sv⟩, ?_, hts⟩
    exact List.mem_flatMap.mpr
      ⟨kv, hkv, List.mem_flatMap.mpr ⟨pv, hpv, List.mem_map.mpr ⟨sv, hsv, rfl⟩⟩⟩

/-- C6: `build_plant_dataframe` joins the plan and realized streams by canonical
timestamp with inner-join semantics — a timestamp survives into the joined table
exactly when it occurs in both streams, so an hour absent from either is dropped
entirely — and then left-joins the price and system-marginal-price streams, which
drop no hours: an hour with no match in a price stream is kept with that price
field unknown (`none`), not zero; if the plan stream or the realized stream is
empty, the result is the empty table returned without error; and the final table
is the derived-column image of the joined table, row for row. -/
theorem C6_join_semantics :
    (∀ (kgup : List KgupRow) (uretim : List UretimRow) (ptf : List PtfRow)
        (smf : List SmfRow), kgup = [] ∨ uretim = [] →
      build_plant_dataframe kgup uretim ptf smf = .ok []) ∧
    (∀ (kgup : List KgupRow) (uretim : List UretimRow) (t : Option Ts),
      t ∈ (innerMergeUretim kgup uretim).map (fun kv => kv.1.ts)
        ↔ t ∈ kgup.map KgupRow.ts ∧ t ∈ uretim.map UretimRow.ts) ∧
    (∀ (kgup : List KgupRow) (uretim : List UretimRow) (ptf : List PtfRow)
        (smf : List SmfRow) (rows : List JoinedRow), ptf ≠ [] → smf ≠ [] →
      build_plant_joined kgup uretim ptf smf = .ok rows →
      ∀ t : Option Ts, t ∈ rows.map JoinedRow.ts
        ↔ t ∈ kgup.map KgupRow.ts ∧ t ∈ uretim.map UretimRow.ts) ∧
    (∀ (kgup : List KgupRow) (uretim : List UretimRow) (ptf : List PtfRow)
        (smf : List SmfRow) (rows : List JoinedRow),
      build_plant_joined kgup uretim ptf smf = .ok rows →
      ∀ r ∈ rows, (r.ts ∉ ptf.map PtfRow.ts → r.ptf = none) ∧
        (r.ts ∉ smf.map SmfRow.ts → r.smf = none)) ∧
    (∀ (kgup : List KgupRow) (uretim : List UretimRow) (ptf : List PtfRow)
        (smf : List SmfRow),
      build_plant_dataframe kgup uretim ptf smf
        = (build_plant_joined kgup uretim ptf smf).map (List.map computeRow)) := by
  refine ⟨?_, fun kgup uretim t => mem_innerMerge_ts kgup uretim t, ?_, ?_,
    fun _ _ _ _ => rfl⟩
  · intro kgup uretim ptf smf h
    unfold build_plant_dataframe build_plant_joined
    rcases h with h | h <;> simp [h, Except.map]
  · intro kgup uretim ptf smf rows hp hsm hok t
    simp only [build_plant_joined] at hok
    by_cases hempty : kgup.isEmpty ∨ uretim.isEmpty
    · rw [if_pos hempty] at hok
      injection hok with hok
      subst hok
      rcases hempty with h | h <;>
        rw [List.isEmpty_iff] at h <;> simp [h]
    · rw [if_neg hempty,
        if_neg (by
          rcases List.exists_mem_of_ne_nil ptf hp with ⟨p0, hp0⟩
          rcases List.exists_mem_of_ne_nil smf hsm with ⟨s0, hs0⟩
          rintro (h | h) <;> rw [List.isEmpty_iff] at h <;> subst h <;>
            simp at hp0 hs0)] at hok
      injection hok with hok
      subst hok
      rw [mem_joinRows_ts, mem_innerMerge_ts]
  · intro kgup uretim ptf smf rows hok r hr
    simp only [build_plant_joined] at hok
    by_cases hempty : kgup.isEmpty ∨ uretim.isEmpty
    · rw [if_pos hempty] at hok
      injection hok with hok
      subst hok
      simp at hr
    · rw [if_neg hempty] at hok
      by_cases hpe : ptf.isEmpty ∨ smf.isEmpty
      · rw [if_pos hpe] at hok
        exact absurd hok (by simp)
      · rw [if_neg hpe] at hok
        injection hok with hok
        subst hok
        obtain ⟨kv, hkv, hr2⟩ := List.mem_flatMap.mp hr
        obtain ⟨pv, hpv, hr3⟩ := List.mem_flatMap.mp hr2
        obtain ⟨sv, hsv, hr4⟩ := List.mem_map.mp hr3
        subst hr4
        constructor
        · intro hnp
          rw [leftJoinPtf_not_mem ptf kv.1.ts hnp] at hpv
          simpa using hpv
        · intro hns
          rw [leftJoinSmf_not_mem smf kv.1.ts hns] at hsv
          simpa using hsv

/-- C6 witness: on the concrete example tables, the empty-plan case yields the
empty table without error; the joined hour `exT0` is present though both price
tables lack it, and both of its price fields are unknown, not zero. -/
theorem C6_join_semantics_witness :
    build_plant_dataframe [] exUretim exPtf exSmf = .ok [] ∧
    (some exT0 ∈ exJoined.map JoinedRow.ts
      ↔ some exT0 ∈ exKgup.map KgupRow.ts ∧ some exT0 ∈ exUretim.map UretimRow.ts) ∧
    ((⟨some exT0, some "2024-01-01", "00:00", some 10, some 12, none, none⟩ :
        JoinedRow).ptf = none ∧
      (⟨some exT0, some "2024-01-01", "00:00", some 10, some 12, none, none⟩ :
        JoinedRow).smf = none) := by
  have h := C6_join_semantics
  have hok : build_plant_joined exKgup exUretim exPtf exSmf = .ok exJoined := rfl
  refine ⟨h.1 [] exUretim exPtf exSmf (Or.inl rfl), ?_, ?_⟩
  · exact h.2.2.1 exKgup exUretim exPtf exSmf exJoined (by decide) (by decide) hok
      (some exT0)
  · have h4 := h.2.2.2.1 exKgup exUretim exPtf exSmf exJoined hok
      ⟨some exT0, some "2024-01-01", "00:00", some 10, some 12, none, none⟩
      (by simp [exJoined])
    exact ⟨h4.1 (by decide), h4.2 (by decide)⟩

/-- C4 counterexample: a raw row whose date text `"2024-02-31"` has the
`YYYY-MM-DD` shape but is not a valid timestamp is marked with the invalid
marker (`datetime = NaT`, here `none`) — yet when both the plan stream and the
realized stream carry such a row, the inner join on `datetime` matches the two
invalid markers with each other (pandas joins `NaT` keys by their sentinel value),
so the joined table contains the invalid-timestamp hour instead of treating it as
absent: the claim's "downstream joins treat such rows as absent" fails. -/
theorem C4_counterexample :
    (fetch_kgup_rows [⟨"2024-02-31", none, some 5⟩]).map KgupRow.ts = [none] ∧
    (fetch_uretim_rows [⟨"2024-02-31", none, some 7⟩]).map UretimRow.ts = [none] ∧
    (build_plant_joined (fetch_kgup_rows [⟨"2024-02-31", none, some 5⟩])
        (fetch_uretim_rows [⟨"2024-02-31", none, some 7⟩]) exPtf exSmf).map
      List.length = .ok 1 := by
  refine ⟨by decide, by decide, rfl⟩

/-- C4 (amended): `_build_datetime` normalizes each raw `(date, hour)` pair with
day = the `YYYY-MM-DD` prefix of the date field, and the hour chosen in priority
order — (a) the `HH:MM` prefix of the dedicated hour field when it matches,
(b) else the `HH:MM` after a `T` inside the date field, (c) else `"00:00"`; the
spec's three examples hold; a row whose combined day+hour is not a valid
timestamp gets the invalid marker `none` rather than raising (whatever carries a
non-`none` timestamp is calendar-valid); and downstream joins drop an
invalid-marker row only when the other stream has none: the invalid marker
participates in the inner join as an ordinary key, matching the other stream's
invalid-marker rows (see `C4_counterexample`). -/
theorem C4_time_key_normalization :
    (∀ (date : String) (hour? : Option String),
      (build_datetime_row date hour?).tarih = (dayMatch date.toList).map String.mk) ∧
    (∀ (date h : String) (hm' : List Char), hmMatch h.toList = some hm' →
      (build_datetime_row date (some h)).saat = String.mk hm') ∧
    (∀ (date : String) (hour? : Option String) (d' : List Char),
      (hour?.bind fun hh => hmMatch hh.toList) = none →
      hourAfterT date.toList = some d' →
      (build_datetime_row date hour?).saat = String.mk d') ∧
    (∀ (date : String) (hour? : Option String),
      (hour?.bind fun hh => hmMatch hh.toList) = none →
      hourAfterT date.toList = none →
      (build_datetime_row date hour?).saat = "00:00") ∧
    (∀ (date : String) (hour? : Option String) (t : Ts),
      (build_datetime_row date hour?).ts = some t → t.isValid) ∧
    (build_datetime_row "2024-03-05" (some "14:30:00")
      = ⟨some "2024-03-05", "14:30", some ⟨2024, 3, 5, 14, 30⟩⟩) ∧
    (build_datetime_row "2024-03-05T09:15:00+03:00" none
      = ⟨some "2024-03-05", "09:15", some ⟨2024, 3, 5, 9, 15⟩⟩) ∧
    (build_datetime_row "2024-03-05" none
      = ⟨some "2024-03-05", "00:00", some ⟨2024, 3, 5, 0, 0⟩⟩) ∧
    (∀ (kg : List KgupRow) (ur : List UretimRow),
      none ∈ (innerMergeUretim kg ur).map (fun kv => kv.1.ts)
        ↔ none ∈ kg.map KgupRow.ts ∧ none ∈ ur.map UretimRow.ts) := by
  refine ⟨fun _ _ => rfl, ?_, ?_, ?_, ?_, by decide, by decide, by decide,
    fun kg ur => mem_innerMerge_ts kg ur none⟩
  · intro date h hm' hm
    show String.mk (((hmMatch h.toList).or (hourAfterT date.toList)).getD
      ['0', '0', ':', '0', '0']) = String.mk hm'
    rw [hm, Option.or_some]
    rfl
  · intro date hour? d' hn hd
    show String.mk (((hour?.bind fun hh => hmMatch hh.toList).or
      (hourAfterT date.toList)).getD ['0', '0', ':', '0', '0']) = String.mk d'
    rw [hn, hd, Option.none_or]
    rfl
  · intro date hour? hn hd
    show String.mk (((hour?.bind fun hh => hmMatch hh.toList).or
      (hourAfterT date.toList)).getD ['0', '0', ':', '0', '0']) = "00:00"
    rw [hn, hd, Option.none_or]
    rfl
  · intro date hour? t h
    simp only [build_datetime_row] at h
    rcases hd : dayMatch date.toList with _ | dl
    · rw [hd] at h
      simp at h
    · rw [hd] at h
      simp only at h
      generalize hq : ((hour?.bind fun hh => hmMatch hh.toList).or
        (hourAfterT date.toList)).getD ['0', '0', ':', '0', '0'] = hf at h
      rcases htp : tsOfParts dl hf with _ | t'
      · rw [htp] at h
        simp at h
      · rw [htp] at h
        simp only at h
        by_cases hv : t'.isValid
        · rw [if_pos hv] at h
          injection h with h
          exact h ▸ hv
        · rw [if_neg hv] at h
          simp at h

/-- C4 witness: the priority rules and the validity guarantee discharged at
concrete inputs. -/
theorem C4_time_key_normalization_witness :
    (build_datetime_row "x" (some "14:30:00")).saat
        = String.mk ['1', '4', ':', '3', '0'] ∧
    (build_datetime_row "2024-03-05T09:15:00+03:00" none).saat
        = String.mk ['0', '9', ':', '1', '5'] ∧
    (build_datetime_row "nodate" none).saat = "00:00" ∧
    Ts.isValid ⟨2024, 3, 5, 14, 30⟩ := by
  have h := C4_time_key_normalization
  refine ⟨h.2.1 "x" "14:30:00" ['1', '4', ':', '3', '0'] rfl,
    h.2.2.1 "2024-03-05T09:15:00+03:00" none ['0', '9', ':', '1', '5'] rfl rfl,
    h.2.2.2.1 "nodate" none rfl rfl,
    h.2.2.2.2.1 "2024-03-05" (some "14:30:00") ⟨2024, 3, 5, 14, 30⟩ (by decide)⟩

/-- The written cells of a month row of the comparison block. -/
theorem compBlock_month (r : ℕ) (h : r < 12) :
    compBlock.getD r []
      = [CCell.num ((r : ℚ) + 1), .sumifF .uretimC, .sumifF .dengC, .sumifF .gopC,
        .sumifF .tutariC, .sumifF .netC, .ifdivF 5 1, .sumifF .maliyetiC,
        .ifdivF 7 1] := by
  unfold compBlock
  rw [List.getD_eq_getElem?_getD, List.getElem?_append, if_pos (by simpa using h)]
  simp [List.getElem?_map, List.getElem?_range h]

/-- The written cells of the totals row of the comparison block. -/
theorem compBlock_total :
    compBlock.getD 12 []
      = [CCell.lab "Toplam", .sumTopF 1, .sumTopF 2, .sumTopF 3, .sumTopF 4,
        .sumTopF 5, .ifdivF 5 1, .sumTopF 7, .ifdivF 7 1] := by
  unfold compBlock
  rw [List.getD_eq_getElem?_getD, List.getElem?_append, if_neg (by simp)]
  simp

/-- The individual cells of a month row. -/
theorem cellAt_month (r : ℕ) (h : r < 12) :
    cellAt compBlock r 0 = CCell.num ((r : ℚ) + 1) ∧
    cellAt compBlock r 1 = CCell.sumifF .uretimC ∧
    cellAt compBlock r 2 = CCell.sumifF .dengC ∧
    cellAt compBlock r 3 = CCell.sumifF .gopC ∧
    cellAt compBlock r 4 = CCell.sumifF .tutariC ∧
    cellAt compBlock r 5 = CCell.sumifF .netC ∧
    cellAt compBlock r 6 = CCell.ifdivF 5 1 ∧
    cellAt compBlock r 7 = CCell.sumifF .maliyetiC ∧
    cellAt compBlock r 8 = CCell.ifdivF 7 1 := by
  unfold cellAt
  rw [compBlock_month r h]
  exact ⟨rfl, rfl, rfl, rfl, rfl, rfl, rfl, rfl, rfl⟩

/-- The individual cells of the totals row. -/
theorem cellAt_total :
    cellAt compBlock 12 0 = CCell.lab "Toplam" ∧
    cellAt compBlock 12 1 = CCell.sumTopF 1 ∧
    cellAt compBlock 12 2 = CCell.sumTopF 2 ∧
    cellAt compBlock 12 3 = CCell.sumTopF 3 ∧
    cellAt compBlock 12 4 = CCell.sumTopF 4 ∧
    cellAt compBlock 12 5 = CCell.sumTopF 5 ∧
    cellAt compBlock 12 6 = CCell.ifdivF 5 1 ∧
    cellAt compBlock 12 7 = CCell.sumTopF 7 ∧
    cellAt compBlock 12 8 = CCell.ifdivF 7 1 := by
  unfold cellAt
  rw [compBlock_total]
  exact ⟨rfl, rfl, rfl, rfl, rfl, rfl, rfl, rfl, rfl⟩

/-- NaN-skipping sum over a cons cell. -/
theorem osum_cons (x : Option ℚ) (l : List (Option ℚ)) :
    osum (x :: l) = x.getD 0 + osum l := by
  cases x <;> simp [osum]

/-- SUMIF over the detail sheet keyed by a month number equals the NaN-skipping
column sum over that month's rows: blank criterion cells match nothing, blank sum
cells contribute nothing. -/
theorem sumifEval_eq_osum (d : List HRow) (c : DCol) (m : ℕ) :
    sumifEval d c (m : ℚ) = osum ((monthRows d m).map (colVal c)) := by
  induction d with
  | nil => rfl
  | cons r rest ih =>
    unfold sumifEval at ih ⊢
    simp only [List.map_cons, List.sum_cons]
    by_cases ha : r.ay = some m
    · have hmt : ayMatches r (m : ℚ) = true := by
        unfold ayMatches
        rw [ha]
        simp
    -- month filter keeps the row
      have hmr : monthRows (r :: rest) m = r :: monthRows rest m := by
        unfold monthRows
        rw [List.filter_cons_of_pos (by simp [ha])]
      rw [hmr, List.map_cons, osum_cons, ← ih]
      simp [hmt]
    · have hmf : ayMatches r (m : ℚ) = false := by
        unfold ayMatches
        cases hay : r.ay with
        | none => rfl
        | some a =>
          simp only [decide_eq_false_iff_not, Nat.cast_inj]
          intro hh
          exact ha (by rw [hay, hh])
      have hmr : monthRows (r :: rest) m = monthRows rest m := by
        unfold monthRows
        rw [List.filter_cons_of_neg (by simp [ha])]
      rw [hmr, ← ih]
      simp [hmf]

/-- SUMIF keyed by the month cell `r + 1` in cast form. -/
theorem sumifEval_succ (d : List HRow) (c : DCol) (r : ℕ) :
    sumifEval d c ((r : ℚ) + 1) = osum ((monthRows d (r + 1)).map (colVal c)) := by
  have hc : ((r : ℚ) + 1) = ((r + 1 : ℕ) : ℚ) := by push_cast; ring
  rw [hc, sumifEval_eq_osum]

/-- The month cell of a month row recalculates to its month number. -/
theorem evalCell_month_cell0 (d : List HRow) (fuel r : ℕ) (h : r < 12) :
    evalCell d compBlock (fuel + 1) r (cellAt compBlock r 0) = (r : ℚ) + 1 := by
  rw [(cellAt_month r h).1]
  rfl

/-- A SUMIF cell on month row `r` recalculates to the month-`r + 1` column sum. -/
theorem eval_sumif_at (d : List HRow) (r : ℕ) (h : r < 12) (c : DCol) (fuel : ℕ) :
    evalCell d compBlock (fuel + 2) r (CCell.sumifF c)
      = osum ((monthRows d (r + 1)).map (colVal c)) := by
  show sumifEval d c (evalCell d compBlock (fuel + 1) r (cellAt compBlock r 0)) = _
  rw [evalCell_month_cell0 d fuel r h, sumifEval_succ]

/-- A totals-row SUM cell over a SUMIF column recalculates to the sum of the 12
monthly column sums. -/
theorem eval_sumTop (d : List HRow) (fuel cIdx : ℕ) (c : DCol)
    (hcell : ∀ i, i < 12 → cellAt compBlock i cIdx = .sumifF c) :
    evalCell d compBlock (fuel + 3) 12 (CCell.sumTopF cIdx)
      = ((List.range 12).map fun i =>
          osum ((monthRows d (i + 1)).map (colVal c))).sum := by
  show ((List.range 12).map fun i =>
    evalCell d compBlock (fuel + 2) i (cellAt compBlock i cIdx)).sum = _
  refine congrArg List.sum (List.map_congr_left fun i hi => ?_)
  have hi12 := List.mem_range.mp hi
  rw [hcell i hi12]
  exact eval_sumif_at d i hi12 c fuel

/-- The 12 monthly column sums rearranged as the mapped aggregation field. -/
theorem monthly_field_sum (d : List HRow) (g : MSRow → ℚ) (f : HRow → Option ℚ)
    (hgf : ∀ (rows : List HRow) (m : ℕ),
      g (aggMonth rows m) = osum ((monthRows rows m).map f)) :
    ((List.range 12).map fun i => osum ((monthRows d (i + 1)).map f)).sum
      = (((List.range 12).map fun i => aggMonth d (i + 1)).map g).sum := by
  rw [List.map_map]
  exact congrArg List.sum (List.map_congr_left fun i _ => (hgf d (i + 1)).symm)

/-- Under recalculation, every cell of the comparison block evaluates to the
corresponding `build_monthly_summary` number. -/
theorem evalGrid_eq_summaryGrid (d : List HRow) : evalGrid d = summaryGrid d := by
  unfold evalGrid summaryGrid
  refine List.map_congr_left fun r hr => ?_
  by_cases hlt : r < 12
  · rw [build_monthly_summary_month d r hlt, if_pos hlt]
    obtain ⟨h0, h1, h2c, h3, h4, h5, h6, h7, h8⟩ := cellAt_month r hlt
    have h9 : List.range 9 = [0, 1, 2, 3, 4, 5, 6, 7, 8] := rfl
    rw [h9]
    simp only [List.map_cons, List.map_nil]
    rw [h0, h1, h2c, h3, h4, h5, h6, h7, h8]
    have hden : evalCell d compBlock 3 r (cellAt compBlock r 1)
        = osum ((monthRows d (r + 1)).map HRow.uretim) := by
      rw [h1]
      exact eval_sumif_at d r hlt .uretimC 1
    have hnum5 : evalCell d compBlock 3 r (cellAt compBlock r 5)
        = osum ((monthRows d (r + 1)).map HRow.net) := by
      rw [h5]
      exact eval_sumif_at d r hlt .netC 1
    have hnum7 : evalCell d compBlock 3 r (cellAt compBlock r 7)
        = osum ((monthRows d (r + 1)).map HRow.maliyeti) := by
      rw [h7]
      exact eval_sumif_at d r hlt .maliyetiC 1
    have e6 : evalCell d compBlock 4 r (CCell.ifdivF 5 1)
        = (aggMonth d (r + 1)).birimGelir := by
      show (if evalCell d compBlock 3 r (cellAt compBlock r 1) = 0 then 0
        else evalCell d compBlock 3 r (cellAt compBlock r 5)
          / evalCell d compBlock 3 r (cellAt compBlock r 1))
        = (aggMonth d (r + 1)).birimGelir
      rw [hden, hnum5]
      rfl
    have e8 : evalCell d compBlock 4 r (CCell.ifdivF 7 1)
        = (aggMonth d (r + 1)).birimDM := by
      show (if evalCell d compBlock 3 r (cellAt compBlock r 1) = 0 then 0
        else evalCell d compBlock 3 r (cellAt compBlock r 7)
          / evalCell d compBlock 3 r (cellAt compBlock r 1))
        = (aggMonth d (r + 1)).birimDM
      rw [hden, hnum7]
      rfl
    rw [e6, e8, eval_sumif_at d r hlt .uretimC 2, eval_sumif_at d r hlt .dengC 2,
      eval_sumif_at d r hlt .gopC 2, eval_sumif_at d r hlt .tutariC 2,
      eval_sumif_at d r hlt .netC 2, eval_sumif_at d r hlt .maliyetiC 2]
    rfl
  · have hr12 : r = 12 := by
      have := List.mem_range.mp hr
      omega
    subst hr12
    rw [build_monthly_summary_total d, if_neg (by omega)]
    obtain ⟨t0, t1, t2, t3, t4, t5, t6, t7, t8⟩ := cellAt_total
    have h9 : List.range 9 = [0, 1, 2, 3, 4, 5, 6, 7, 8] := rfl
    rw [h9]
    simp only [List.map_cons, List.map_nil]
    rw [t0, t1, t2, t3, t4, t5, t6, t7, t8]
    have hcell1 := fun i hi => (cellAt_month i hi).2.1
    have hcell2 := fun i hi => (cellAt_month i hi).2.2.1
    have hcell3 := fun i hi => (cellAt_month i hi).2.2.2.1
    have hcell4 := fun i hi => (cellAt_month i hi).2.2.2.2.1
    have hcell5 := fun i hi => (cellAt_month i hi).2.2.2.2.2.1
    have hcell7 := fun i hi => (cellAt_month i hi).2.2.2.2.2.2.2.1
    have s1 := (eval_sumTop d 1 1 .uretimC hcell1).trans
      (monthly_field_sum d MSRow.uretim HRow.uretim fun _ _ => rfl)
    have s2 := (eval_sumTop d 1 2 .dengC hcell2).trans
      (monthly_field_sum d MSRow.deng HRow.deng fun _ _ => rfl)
    have s3 := (eval_sumTop d 1 3 .gopC hcell3).trans
      (monthly_field_sum d MSRow.gop HRow.gop fun _ _ => rfl)
    have s4 := (eval_sumTop d 1 4 .tutariC hcell4).trans
      (monthly_field_sum d MSRow.tutari HRow.tutari fun _ _ => rfl)
    have s5 := (eval_sumTop d 1 5 .netC hcell5).trans
      (monthly_field_sum d MSRow.net HRow.net fun _ _ => rfl)
    have s7 := (eval_sumTop d 1 7 .maliyetiC hcell7).trans
      (monthly_field_sum d MSRow.maliyeti HRow.maliyeti fun _ _ => rfl)
    have hden : evalCell d compBlock 3 12 (cellAt compBlock 12 1)
        = (((List.range 12).map fun i => aggMonth d (i + 1)).map MSRow.uretim).sum := by
      rw [t1]
      exact (eval_sumTop d 0 1 .uretimC hcell1).trans
        (monthly_field_sum d MSRow.uretim HRow.uretim fun _ _ => rfl)
    have hnum5 : evalCell d compBlock 3 12 (cellAt compBlock 12 5)
        = (((List.range 12).map fun i => aggMonth d (i + 1)).map MSRow.net).sum := by
      rw [t5]
      exact (eval_sumTop d 0 5 .netC hcell5).trans
        (monthly_field_sum d MSRow.net HRow.net fun _ _ => rfl)
    have hnum7 : evalCell d compBlock 3 12 (cellAt compBlock 12 7)
        = (((List.range 12).map fun i =>
            aggMonth d (i + 1)).map MSRow.maliyeti).sum := by
      rw [t7]
      exact (eval_sumTop d 0 7 .maliyetiC hcell7).trans
        (monthly_field_sum d MSRow.maliyeti HRow.maliyeti fun _ _ => rfl)
    have e6 : evalCell d compBlock 4 12 (CCell.ifdivF 5 1)
        = (if (((List.range 12).map fun i =>
              aggMonth d (i + 1)).map MSRow.uretim).sum = 0 then 0
           else (((List.range 12).map fun i => aggMonth d (i + 1)).map MSRow.net).sum
             / (((List.range 12).map fun i =>
               aggMonth d (i + 1)).map MSRow.uretim).sum) := by
      show (if evalCell d compBlock 3 12 (cellAt compBlock 12 1) = 0 then 0
        else evalCell d compBlock 3 12 (cellAt compBlock 12 5)
          / evalCell d compBlock 3 12 (cellAt compBlock 12 1)) = _
      rw [hden, hnum5]
    have e8 : evalCell d compBlock 4 12 (CCell.ifdivF 7 1)
        = (if (((List.range 12).map fun i =>
              aggMonth d (i + 1)).map MSRow.uretim).sum = 0 then 0
           else (((List.range 12).map fun i =>
               aggMonth d (i + 1)).map MSRow.maliyeti).sum
             / (((List.range 12).map fun i =>
               aggMonth d (i + 1)).map MSRow.uretim).sum) := by
      show (if evalCell d compBlock 3 12 (cellAt compBlock 12 1) = 0 then 0
        else evalCell d compBlock 3 12 (cellAt compBlock 12 7)
          / evalCell d compBlock 3 12 (cellAt compBlock 12 1)) = _
      rw [hden, hnum7]
    rw [e6, e8, s1, s2, s3, s4, s5, s7]
    rfl

/-- C3 counterexample: the first of the 9 summary columns (`Ay`, the month-label
column) is written into each month row with `wsC.write` as a static month number,
a value cell, not a spreadsheet formula — so "each of the 9 summary columns ... is
written as a spreadsheet formula" fails at the month-1 row's `Ay` cell. -/
theorem C3_counterexample :
    (cellAt compBlock 0 0).isFormula = false ∧
    cellAt compBlock 0 0 = CCell.num (((0 : ℕ) : ℚ) + 1) := by
  exact ⟨by decide, rfl⟩

/-- C3 (amended): in each plant block of the comparison sheet, the month-label
column `Ay` is written as a static month number (and the static label `Toplam` in
the totals row), while each of the other 8 summary columns is written as a
formula, not a copied value: a SUMIF over the detail sheet's hourly rows keyed by
the row's month cell for the 6 summed columns, an IF-guarded ratio of the block's
own cells for the 2 unit-ratio columns; the totals row holds, for each summed
column, a SUM formula over the 12 month-formula cells above it and, for each
ratio column, an IF-guarded ratio of the totals cells; and under formula
recalculation every cell of the block evaluates to exactly the corresponding
`build_monthly_summary` number for the same plant table. -/
theorem C3_formula_report :
    (∀ r, r < 12 →
      compBlock.getD r []
        = [CCell.num ((r : ℚ) + 1), .sumifF .uretimC, .sumifF .dengC,
          .sumifF .gopC, .sumifF .tutariC, .sumifF .netC, .ifdivF 5 1,
          .sumifF .maliyetiC, .ifdivF 7 1]) ∧
    compBlock.getD 12 []
      = [CCell.lab "Toplam", .sumTopF 1, .sumTopF 2, .sumTopF 3, .sumTopF 4,
        .sumTopF 5, .ifdivF 5 1, .sumTopF 7, .ifdivF 7 1] ∧
    ((List.range 13).all fun r =>
      (List.range 8).all fun j => (cellAt compBlock r (j + 1)).isFormula) = true ∧
    (cellAt compBlock 0 0).isFormula = false ∧
    (∀ d : List HRow, evalGrid d = summaryGrid d) := by
  exact ⟨compBlock_month, compBlock_total, by decide, by decide,
    evalGrid_eq_summaryGrid⟩

/-- C3 witness: the layout facts discharged at the first month row, and the
recalculation equivalence at a concrete detail table. -/
theorem C3_formula_report_witness :
    compBlock.getD 0 []
      = [CCell.num (((0 : ℕ) : ℚ) + 1), .sumifF .uretimC, .sumifF .dengC,
        .sumifF .gopC, .sumifF .tutariC, .sumifF .netC, .ifdivF 5 1,
        .sumifF .maliyetiC, .ifdivF 7 1] ∧
    evalGrid [exRowA] = summaryGrid [exRowA] :=
  ⟨C3_formula_report.1 0 (by norm_num), C3_formula_report.2.2.2.2 [exRowA]⟩

/-- C10 witness: shape and empty-month defaults on a concrete one-row table. -/
theorem C10_extras_shape_witness :
    (compute_monthly_extras [exRowA]).asym_ratio.length = 12 ∧
    (compute_monthly_extras [exRowA]).asym_ratio.getD 2 (some 0) = none ∧
    (compute_monthly_extras [exRowA]).accuracy_pct.getD 2 1 = 0 ∧
    (compute_monthly_extras [exRowA]).prod_hours.getD 2 1 = 0 := by
  have h := C10_extras_shape [exRowA]
  have hd := h.2 3 (by norm_num) (by norm_num) (by decide)
  exact ⟨h.1.2.1, hd.2.1, hd.1, hd.2.2.2.2.2.2.2.2.1⟩

end Epias
